import Mathlib

/-!
Sistema de gestión de citas médicas.

Shallow embedding of `src/server.js` (the Express handlers and the `validarCita`
middleware) and of `src/utils/fileManager.js` (`FileManager.generarId`).

Modelling conventions.

* A JSON collection is a `List` of records; `leerDatos` returns the list and
  `escribirDatos` replaces it (the write is taken to succeed).
* Record fields that the handlers read are `String`s.  A request body is a
  record of its keys; an absent key and the empty string are both falsy for
  the `!campo` tests, so an absent key is read as `""`.
* A rejection is the pair of HTTP status and `message` that the handler sends.
* Numbers of the host language are doubles: `Numero` and `NumeroEntero` hold
  `NaN`, the infinities and the finite doubles, and every value computed is
  rounded to the nearest double, ties to even.  Every ordering test on `NaN`
  is false.
* A `Date` is its time value in milliseconds since the epoch (`none` for an
  invalid date).  The host's date parser, the offset of local time from UTC and
  the reading of the clock are the fields of `Entorno`.
* A `GET` request is answered by the handler of the first `app.get` call, in
  source order, whose route path matches the request path (`responderGet`);
  the definitions named after a route are the handlers given to that call.
-/

namespace Citas

set_option maxRecDepth 8000

deriving instance DecidableEq for Except

/-! ## Text and number primitives of the host language -/

/-- Decimal digit test on a character. -/
def esDigito (c : Char) : Bool := decide (48 ≤ c.toNat) && decide (c.toNat ≤ 57)

/-- Value of a decimal digit character. -/
def valorDigito (c : Char) : Nat := c.toNat - 48

/-- Value of a run of decimal digits, most significant digit first. -/
def valorDecimal (cs : List Char) : Nat :=
  cs.foldl (fun acc c => acc * 10 + valorDigito c) 0

/-- White space and line terminators of the host language, as skipped by
`parseInt` and `Number` and matched by `\s`. -/
def esBlanco (c : Char) : Bool :=
  [9, 10, 11, 12, 13, 32, 160, 5760, 8232, 8233, 8239, 8287, 12288, 65279].contains c.toNat
    || (decide (8192 ≤ c.toNat) && decide (c.toNat ≤ 8202))

/-- Value of a digit in base sixteen or below, `none` for any other character. -/
def valorCifra (c : Char) : Option Nat :=
  if esDigito c then some (c.toNat - 48)
  else if decide (97 ≤ c.toNat) && decide (c.toNat ≤ 102) then some (c.toNat - 87)
  else if decide (65 ≤ c.toNat) && decide (c.toNat ≤ 70) then some (c.toNat - 55)
  else none

/-- Digit test in the given radix. -/
def esCifra (radix : Nat) (c : Char) : Bool :=
  match valorCifra c with
  | some v => decide (v < radix)
  | none => false

/-- Value of a run of digits in the given radix. -/
def valorEnBase (radix : Nat) (cs : List Char) : Nat :=
  cs.foldl (fun acc c => acc * radix + (valorCifra c).getD 0) 0

/-- Binary digits of a natural number, counted with fuel. -/
def bitsAux : Nat → Nat → Nat
  | 0, _ => 0
  | fuel + 1, n => if n = 0 then 0 else bitsAux fuel (n / 2) + 1

/-- Number of binary digits of a natural number. -/
def bits (n : Nat) : Nat := bitsAux n n

/-- A number of the host: `NaN`, an infinity, or a finite double.  A finite
double is given by the integer `k` for which its value is `k * 2 ^ (-1074)`;
every finite double is such a multiple.  The two zeros are not told apart:
nothing here divides by a number or prints one of this type. -/
inductive Numero where
  | nan
  | infinito (negativo : Bool)
  | finito (k : Int)
deriving DecidableEq, Repr

/-- The double nearest to the rational `a / b`, in units of `2 ^ (-1074)`:
a significand of fifty-three binary digits, ties to the even one. -/
def redondear (a b : Nat) : Nat :=
  let s := bits ((a <<< 1074) / b) - 53
  let m := (a <<< 1074) / (b <<< s)
  let r := (a <<< 1074) % (b <<< s)
  (if b <<< s < 2 * r ∨ (2 * r = b <<< s ∧ m % 2 = 1) then m + 1 else m) <<< s

/-- The host number of a rational `a / b` with a sign: the nearest double, an
infinity when that is beyond the largest double. -/
def deRacional (negativo : Bool) (a b : Nat) : Numero :=
  if 2098 < bits (redondear a b) then .infinito negativo
  else .finito (if negativo then -(redondear a b : Int) else redondear a b)

/-- The host product `x * y` of two numbers. -/
def producto (x y : Numero) : Numero :=
  match x, y with
  | .nan, _ => .nan
  | _, .nan => .nan
  | .infinito n, .infinito m => .infinito (n != m)
  | .infinito n, .finito k => if k = 0 then .nan else .infinito (n != decide (k < 0))
  | .finito k, .infinito n => if k = 0 then .nan else .infinito (n != decide (k < 0))
  | .finito a, .finito b =>
    deRacional (decide (a < 0) != decide (b < 0)) (a.natAbs * b.natAbs) (1 <<< 2148)

/-- The host sum `x + y` of two numbers. -/
def suma (x y : Numero) : Numero :=
  match x, y with
  | .nan, _ => .nan
  | _, .nan => .nan
  | .infinito n, .infinito m => if n = m then .infinito n else .nan
  | .infinito n, .finito _ => .infinito n
  | .finito _, .infinito n => .infinito n
  | .finito a, .finito b => deRacional (decide (a + b < 0)) (a + b).natAbs (1 <<< 1074)

/-- The host comparison `a < b` on numbers, false when either is `NaN`. -/
def menorQue (a b : Numero) : Bool :=
  match a, b with
  | .nan, _ => false
  | _, .nan => false
  | .finito x, .finito y => decide (x < y)
  | .infinito n, .infinito m => n && !m
  | .infinito n, .finito _ => n
  | .finito _, .infinito m => !m

/-- The host comparison `a >= b` on numbers, false when either is `NaN`. -/
def mayorIgual (a b : Numero) : Bool :=
  match a, b with
  | .nan, _ => false
  | _, .nan => false
  | .finito x, .finito y => decide (y ≤ x)
  | .infinito n, .infinito m => !n || m
  | .infinito n, .finito _ => !n
  | .finito _, .infinito m => m

/-- A text without the blanks at its two ends. -/
def recortar (cs : List Char) : List Char :=
  ((cs.dropWhile esBlanco).reverse.dropWhile esBlanco).reverse

/-- The reading of the texts `0x...`, `0o...` and `0b...` by `Number`:
`none` when the text has no such radix mark, `NaN` when the mark is not
followed by digits of its radix only. -/
def leerConRadix (t : List Char) : Option Numero :=
  match t with
  | '0' :: c :: ds =>
    let radix : Nat :=
      if c = 'x' ∨ c = 'X' then 16
      else if c = 'o' ∨ c = 'O' then 8
      else if c = 'b' ∨ c = 'B' then 2
      else 0
    if radix = 0 then none
    else if !ds.isEmpty && ds.all (esCifra radix) then
      some (deRacional false (valorEnBase radix ds) 1)
    else some .nan
  | _ => none

/-- The exponent part of a decimal text: `0` when there is none, `none` when
what follows the digits is not a well-formed exponent part. -/
def leerExponente (t : List Char) : Option Int :=
  match t with
  | [] => some 0
  | c :: r =>
    if c = 'e' ∨ c = 'E' then
      match r with
      | '-' :: ds =>
        if !ds.isEmpty && ds.all esDigito then some (-(valorDecimal ds : Int)) else none
      | '+' :: ds =>
        if !ds.isEmpty && ds.all esDigito then some (valorDecimal ds : Int) else none
      | ds => if !ds.isEmpty && ds.all esDigito then some (valorDecimal ds : Int) else none
    else none

/-- The digits after a decimal point and the text that follows them; no
digits when the text does not start with a point. -/
def leerFraccion (t : List Char) : List Char × List Char :=
  match t with
  | '.' :: r => (r.takeWhile esDigito, r.dropWhile esDigito)
  | r => ([], r)

/-- The reading of a decimal text by `Number`: a sign, then `Infinity` or
digits with a point and an exponent part, `NaN` for anything else. -/
def leerDecimal (t : List Char) : Numero :=
  let negativo : Bool := match t with
    | '-' :: _ => true
    | _ => false
  let u := match t with
    | '-' :: r => r
    | '+' :: r => r
    | r => r
  if u = ['I', 'n', 'f', 'i', 'n', 'i', 't', 'y'] then .infinito negativo
  else
    let enteros := u.takeWhile esDigito
    let fraccion := leerFraccion (u.dropWhile esDigito)
    if enteros.isEmpty && fraccion.1.isEmpty then .nan
    else
      match leerExponente fraccion.2 with
      | none => .nan
      | some ex =>
        let n := valorDecimal (enteros ++ fraccion.1)
        let e : Int := ex - (fraccion.1.length : Int)
        if 0 ≤ e then deRacional negativo (n * 10 ^ e.toNat) 1
        else deRacional negativo n (10 ^ (-e).toNat)

/-- The host function `Number` on a text: blanks at the ends are dropped, the
empty text reads as `0`, a radix mark selects base sixteen, eight or two, and
any other text is read as a decimal literal, rounded to the nearest double. -/
def Number (cs : List Char) : Numero :=
  if (recortar cs).isEmpty then .finito 0
  else
    match leerConRadix (recortar cs) with
    | some x => x
    | none => leerDecimal (recortar cs)

/-- The host method `split` with a one-character separator. -/
def split (sep : Char) : List Char → List (List Char)
  | [] => [[]]
  | c :: cs =>
    if c = sep then [] :: split sep cs
    else
      match split sep cs with
      | [] => [[c]]
      | p :: ps => (c :: p) :: ps

/-- The host number of a natural number below `2 ^ 53`, which is a double. -/
def deNatural (n : Nat) : Numero := .finito ((n <<< 1074 : Nat) : Int)

/-- The inline expression
`const [h, m] = s.split(':').map(Number); h * 60 + m` of `validarCita` and of
`GET /doctores/disponibles`: minutes since midnight, `NaN` when either
component is `NaN` or the second one is missing. -/
def aMinutos (s : String) : Numero :=
  match (split ':' s.data).map Number with
  | h :: m :: _ => suma (producto h (deNatural 60)) m
  | _ => .nan

/-! ## Dates -/

/-- The runtime surroundings of a request. -/
structure Entorno where
  /-- Time value of `new Date(texto)`, `none` for an invalid date. -/
  analizarFecha : String → Option Int
  /-- Local time minus UTC, in milliseconds (taken constant). -/
  desfase : Int
  /-- Time value of `new Date()`. -/
  ahora : Int

/-- Milliseconds in a day. -/
def msPorDia : Int := 86400000

/-- The value of `hoy` after `hoy.setHours(0, 0, 0, 0)`: the instant at which
the local calendar day of `ahora` starts. -/
def hoy (e : Entorno) : Int := e.ahora - (e.ahora + e.desfase) % msPorDia

/-- The host method `getDay`: local weekday of an instant, `0` for Sunday
(the epoch fell on a Thursday). -/
def getDay (e : Entorno) (t : Int) : Nat := (((t + e.desfase) / msPorDia + 4) % 7).toNat

/-- The weekday table of `validarCita` and of `GET /doctores/disponibles`. -/
def diasSemana : List String :=
  ["Domingo", "Lunes", "Martes", "Miércoles", "Jueves", "Viernes", "Sábado"]

/-- The value of `diaCita`, that is `diasSemana[fechaCita.getDay()]`; it is
`undefined` (`none`) for an invalid date. -/
def diaCita (e : Entorno) (fecha : String) : Option String :=
  (e.analizarFecha fecha).bind (fun t => diasSemana[getDay e t]?)

/-- The host comparison `fechaCita < hoy` of two dates, false for an invalid
date. -/
def fechaAnterior (fechaCita : Option Int) (limite : Int) : Bool :=
  match fechaCita with
  | some t => decide (t < limite)
  | none => false

/-- The host method `includes` of an array of strings applied to a value that
may be `undefined`. -/
def includes (xs : List String) (x : Option String) : Bool :=
  match x with
  | some s => xs.contains s
  | none => false

/-- Text of a possibly undefined string inside a template literal. -/
def enPlantilla (x : Option String) : String := x.getD "undefined"

/-! ## Records -/

/-- A stored patient. -/
structure Paciente where
  id : String
  nombre : String
  edad : String
  telefono : String
  email : String
  fechaRegistro : String
deriving DecidableEq, Repr

/-- A stored doctor. -/
structure Doctor where
  id : String
  nombre : String
  especialidad : String
  horarioInicio : String
  horarioFin : String
  diasDisponibles : List String
deriving DecidableEq, Repr

/-- A stored appointment. -/
structure Cita where
  id : String
  pacienteId : String
  doctorId : String
  fecha : String
  hora : String
  motivo : String
  estado : String
deriving DecidableEq, Repr

/-- The body of `POST /citas`.  `id` is the body's own `id` key when it has
one: the handler spreads the body after the generated id.  A body's `estado`
key is not kept, the handler writes `estado` after the spread. -/
structure CuerpoCita where
  id : Option String
  pacienteId : String
  doctorId : String
  fecha : String
  hora : String
  motivo : String
deriving DecidableEq, Repr

/-- What a handler sends on rejection. -/
structure Respuesta where
  status : Nat
  message : String
deriving DecidableEq, Repr

/-! ## The middleware `validarCita` -/

/-- The search `citas.find(c => c.doctorId === doctorId && c.fecha === fecha &&
c.hora === hora && c.estado !== 'cancelada')`. -/
def citaExistente (citas : List Cita) (doctorId fecha hora : String) : Option Cita :=
  citas.find? (fun c =>
    c.doctorId == doctorId && c.fecha == fecha && c.hora == hora && c.estado != "cancelada")

/-- The middleware `validarCita`: `Except.ok` carries `req.paciente` and
`req.doctor` and stands for the call of `next()`. -/
def validarCita (e : Entorno) (pacientes : List Paciente) (doctores : List Doctor)
    (citas : List Cita) (body : CuerpoCita) : Except Respuesta (Paciente × Doctor) :=
  if body.pacienteId = "" ∨ body.doctorId = "" ∨ body.fecha = "" ∨ body.hora = ""
      ∨ body.motivo = "" then
    .error ⟨400, "Todos los campos son obligatorios"⟩
  else
    match pacientes.find? (fun p => p.id == body.pacienteId) with
    | none => .error ⟨404, "Paciente no encontrado"⟩
    | some paciente =>
      match doctores.find? (fun d => d.id == body.doctorId) with
      | none => .error ⟨404, "Doctor no encontrado"⟩
      | some doctor =>
        if fechaAnterior (e.analizarFecha body.fecha) (hoy e) then
          .error ⟨400, "La cita debe ser en una fecha futura"⟩
        else if !(includes doctor.diasDisponibles (diaCita e body.fecha)) then
          .error ⟨400, "El doctor no trabaja los " ++ enPlantilla (diaCita e body.fecha) ++ "s"⟩
        else if menorQue (aMinutos body.hora) (aMinutos doctor.horarioInicio)
            || mayorIgual (aMinutos body.hora) (aMinutos doctor.horarioFin) then
          .error ⟨400, "El doctor solo atiende de " ++ doctor.horarioInicio ++ " a "
            ++ doctor.horarioFin⟩
        else
          match citaExistente citas body.doctorId body.fecha body.hora with
          | some _ => .error ⟨400, "El doctor ya tiene una cita programada en este horario"⟩
          | none => .ok (paciente, doctor)

/-! ## `FileManager.generarId` -/

/-- The host method `replace(patron, '')` with a string pattern: the first
occurrence of the pattern is removed. -/
def replace (patron : List Char) : List Char → List Char
  | [] => []
  | c :: cs =>
    if patron.isPrefixOf (c :: cs) then (c :: cs).drop patron.length
    else c :: replace patron cs

/-- The mathematical integer that `parseInt` reads with no radix argument:
leading blanks are skipped, a sign is read, `0x` or `0X` selects base sixteen,
and the longest run of digits is the value; `none` when that run is empty. -/
def enteroLeido (s : List Char) : Option Int :=
  let s1 := s.dropWhile esBlanco
  let negativo : Bool := match s1 with
    | '-' :: _ => true
    | _ => false
  let s2 := match s1 with
    | '-' :: r => r
    | '+' :: r => r
    | r => r
  let hex : Bool := match s2 with
    | '0' :: 'x' :: _ => true
    | '0' :: 'X' :: _ => true
    | _ => false
  let s3 := if hex then s2.drop 2 else s2
  let radix := if hex then 16 else 10
  let z := s3.takeWhile (esCifra radix)
  if z = [] then none
  else some (if negativo then -((valorEnBase radix z : Nat) : Int) else (valorEnBase radix z : Nat))

/-- An integer-valued number of the host, as `parseInt` returns and
`generarId` computes with: `NaN`, an infinity, or a double whose value is the
integer `v`.  The two zeros are not told apart: both are falsy and both print
as `0`. -/
inductive NumeroEntero where
  | nan
  | infinito (negativo : Bool)
  | entero (v : Int)
deriving DecidableEq, Repr

/-- The double nearest to a natural number: a significand of fifty-three
binary digits, ties to the even one. -/
def redondearEntero (n : Nat) : Nat :=
  let s := bits n - 53
  let m := n / 2 ^ s
  let r := n % 2 ^ s
  (if 2 ^ s < 2 * r ∨ (2 * r = 2 ^ s ∧ m % 2 = 1) then m + 1 else m) * 2 ^ s

/-- The host number of a mathematical integer: the nearest double, an
infinity when that is beyond the largest double. -/
def deEntero (i : Int) : NumeroEntero :=
  if 1024 < bits (redondearEntero i.natAbs) then .infinito (decide (i < 0))
  else .entero (if i < 0 then -(redondearEntero i.natAbs : Int) else redondearEntero i.natAbs)

/-- The host function `parseInt` with no radix argument: the integer read,
rounded to the nearest double; `NaN` when no digit is read. -/
def parseInt (s : List Char) : NumeroEntero :=
  match enteroLeido s with
  | none => .nan
  | some i => deEntero i

/-- The host expression `x || 0` on a number: `0` for `NaN` and for zero,
`x` otherwise. -/
def oCero (x : NumeroEntero) : NumeroEntero :=
  match x with
  | .nan => .entero 0
  | y => y

/-- The host comparison `a > b` on numbers, false when either is `NaN`. -/
def mayorQue (a b : NumeroEntero) : Bool :=
  match a, b with
  | .nan, _ => false
  | _, .nan => false
  | .entero x, .entero y => decide (y < x)
  | .infinito n, .infinito m => !n && m
  | .infinito n, .entero _ => !n
  | .entero _, .infinito m => m

/-- The host comparison `a <= b` on numbers, false when either is `NaN`. -/
def menorOIgual (a b : NumeroEntero) : Bool :=
  match a, b with
  | .nan, _ => false
  | _, .nan => false
  | .entero x, .entero y => decide (x ≤ y)
  | .infinito n, .infinito m => n || !m
  | .infinito n, .entero _ => n
  | .entero _, .infinito m => !m

/-- The host expression `x + 1` on an integer-valued number. -/
def masUno (x : NumeroEntero) : NumeroEntero :=
  match x with
  | .nan => .nan
  | .infinito n => .infinito n
  | .entero v => deEntero (v + 1)

/-- The pairs `(s, e)` with `s` of `k` decimal digits for which `s * 10 ^ e`
rounds to the double `v`. -/
def candidatos (v k : Nat) : List (Nat × Nat) :=
  ([(Nat.toDigits 10 v).length - k, (Nat.toDigits 10 v).length + 1 - k].map (fun e =>
    ([v / 10 ^ e, v / 10 ^ e + 1].filter (fun s =>
      decide (10 ^ (k - 1) ≤ s) && decide (s < 10 ^ k)
        && decide (redondearEntero (s * 10 ^ e) = v))).map (fun s => (s, e)))).flatten

/-- Distance from `s * 10 ^ e` to `v`. -/
def distancia (v : Nat) (c : Nat × Nat) : Nat :=
  if v ≤ c.1 * 10 ^ c.2 then c.1 * 10 ^ c.2 - v else v - c.1 * 10 ^ c.2

/-- The candidate nearest to `v`, the one with even `s` of two equally near. -/
def mejor (v : Nat) (cs : List (Nat × Nat)) : Option (Nat × Nat) :=
  cs.foldl (fun acc c =>
    match acc with
    | none => some c
    | some b =>
      if distancia v c < distancia v b
          ∨ (distancia v c = distancia v b ∧ c.1 % 2 = 0 ∧ b.1 % 2 = 1) then some c
      else some b) none

/-- The shortest decimal digits `s` and power `e` for which `s * 10 ^ e`
rounds to the double `v`, as the host chooses them when it prints `v`. -/
def digitosMinimos (v : Nat) : Nat × Nat :=
  (((List.range 17).map (fun k => k + 1)).findSome? (fun k => mejor v (candidatos v k))).getD (v, 0)

/-- The host's decimal text of a double whose value is the natural number
`v`: all the digits of `v` below `2 ^ 53`; from there on the shortest digits
that round to `v` followed by zeros, and in exponent form when that takes more
than twenty-one digits. -/
def digitosDe (v : Nat) : List Char :=
  if v < 2 ^ 53 then Nat.toDigits 10 v
  else
    let c := digitosMinimos v
    let ds := Nat.toDigits 10 c.1
    let n := ds.length + c.2
    if n ≤ 21 then ds ++ List.replicate c.2 '0'
    else
      match ds with
      | [d] => d :: 'e' :: '+' :: Nat.toDigits 10 (n - 1)
      | d :: resto => d :: '.' :: resto ++ 'e' :: '+' :: Nat.toDigits 10 (n - 1)
      | [] => []

/-- The host method `toString` on an integer-valued number. -/
def numToString (x : NumeroEntero) : List Char :=
  match x with
  | .nan => ['N', 'a', 'N']
  | .infinito n =>
    if n then ['-', 'I', 'n', 'f', 'i', 'n', 'i', 't', 'y']
    else ['I', 'n', 'f', 'i', 'n', 'i', 't', 'y']
  | .entero v => if v < 0 then '-' :: digitosDe v.natAbs else digitosDe v.natAbs

/-- The host method `padStart`. -/
def padStart (largo : Nat) (relleno : Char) (s : List Char) : List Char :=
  List.replicate (largo - s.length) relleno ++ s

/-- The reducer of `generarId`:
`(max, item) => { const num = parseInt(item.id.replace(prefix, '')) || 0;
return num > max ? num : max }`. -/
def reductorId (prefijo : String) (max : NumeroEntero) (id : String) : NumeroEntero :=
  let num := oCero (parseInt (replace prefijo.data id.data))
  if mayorQue num max then num else max

/-- The value of `maxId` in `generarId`. -/
def maxId (prefijo : String) (ids : List String) : NumeroEntero :=
  ids.foldl (reductorId prefijo) (.entero 0)

/-- The method `FileManager.generarId(prefix, datos)`; `ids` is the list of
the `id` fields of `datos`, the only field the method reads. -/
def generarId (prefijo : String) (ids : List String) : String :=
  if ids.length = 0 then prefijo ++ "001"
  else prefijo ++ String.mk (padStart 3 '0' (numToString (masUno (maxId prefijo ids))))

/-! ## `POST /citas` and `PUT /citas/:id/cancelar` -/

/-- The record `nuevaCita` of `POST /citas`:
`{ id: generarId('C', citas), ...req.body, estado: 'programada' }`. -/
def nuevaCita (citas : List Cita) (body : CuerpoCita) : Cita :=
  { id := body.id.getD (generarId "C" (citas.map (fun c => c.id)))
    pacienteId := body.pacienteId
    doctorId := body.doctorId
    fecha := body.fecha
    hora := body.hora
    motivo := body.motivo
    estado := "programada" }

/-- The route `POST /citas`: the middleware, then the append.  The result is
the stored collection after the request. -/
def postCitas (e : Entorno) (pacientes : List Paciente) (doctores : List Doctor)
    (citas : List Cita) (body : CuerpoCita) : Except Respuesta (List Cita) :=
  match validarCita e pacientes doctores citas body with
  | .error r => .error r
  | .ok _ => .ok (citas ++ [nuevaCita citas body])

/-- The route `PUT /citas/:id/cancelar`.  The result is the stored collection
after the request. -/
def putCitasCancelar (citas : List Cita) (id : String) : Except Respuesta (List Cita) :=
  let index := citas.findIdx (fun c => c.id == id)
  match citas[index]? with
  | none => .error ⟨404, "Cita no encontrada"⟩
  | some c =>
    if c.estado != "programada" then
      .error ⟨400, "Solo se pueden cancelar citas programadas"⟩
    else
      .ok (citas.set index { c with estado := "cancelada" })

/-- Collections of appointments that the two writing routes can produce from
the empty store, whatever the patients, doctors, clock and requests are. -/
inductive Alcanzable : List Cita → Prop
  | vacio : Alcanzable []
  | agendar {citas citas2 : List Cita} (e : Entorno) (pacientes : List Paciente)
      (doctores : List Doctor) (body : CuerpoCita) :
      Alcanzable citas → postCitas e pacientes doctores citas body = .ok citas2 →
      Alcanzable citas2
  | cancelar {citas citas2 : List Cita} (id : String) :
      Alcanzable citas → putCitasCancelar citas id = .ok citas2 → Alcanzable citas2

/-- The appointments of a slot that are in status `programada`. -/
def programadasEn (citas : List Cita) (doctorId fecha hora : String) : List Cita :=
  citas.filter (fun c =>
    c.doctorId == doctorId && c.fecha == fecha && c.hora == hora && c.estado == "programada")

/-- Slot uniqueness: each `(doctorId, fecha, hora)` has at most one appointment
in status `programada`. -/
def SlotUnico (citas : List Cita) : Prop :=
  ∀ doctorId fecha hora : String, (programadasEn citas doctorId fecha hora).length ≤ 1

/-! ## A reader for the calendar-date wire format -/

/-- Leap years of the Gregorian calendar. -/
def esBisiesto (y : Nat) : Bool := (y % 4 == 0 && y % 100 != 0) || y % 400 == 0

/-- Number of days of a month. -/
def diasDelMes (y m : Nat) : Nat :=
  if m = 2 then (if esBisiesto y then 29 else 28)
  else if m = 4 ∨ m = 6 ∨ m = 9 ∨ m = 11 then 30
  else 31

/-- Day number of a calendar date, counted from 1970-01-01. -/
def diasDesdeEpoca (y m d : Nat) : Int :=
  let y1 : Int := if m ≤ 2 then (y : Int) - 1 else y
  let era : Int := y1 / 400
  let yoe : Int := y1 - era * 400
  let mp : Int := if m > 2 then (m : Int) - 3 else (m : Int) + 9
  let doy : Int := (153 * mp + 2) / 5 + (d : Int) - 1
  let doe : Int := yoe * 365 + yoe / 4 - yoe / 100 + doy
  era * 146097 + doe - 719468

/-- The host's reading of a date-only text `YYYY-MM-DD` naming a day of the
calendar: midnight UTC of that day.  Any other text is taken as an invalid
date; it serves as the parser of the concrete environments below, whose dates
are all of this form or plainly not dates. -/
def analizarFechaISO (s : String) : Option Int :=
  match s.data with
  | [y1, y2, y3, y4, '-', m1, m2, '-', d1, d2] =>
    if [y1, y2, y3, y4, m1, m2, d1, d2].all esDigito then
      let y := valorDecimal [y1, y2, y3, y4]
      let m := valorDecimal [m1, m2]
      let d := valorDecimal [d1, d2]
      if 1 ≤ m ∧ m ≤ 12 ∧ 1 ≤ d ∧ d ≤ diasDelMes y m then
        some (diasDesdeEpoca y m d * msPorDia)
      else none
    else none
  | _ => none

/-- A server on UTC at 2030-01-07T01:00:00Z, a Monday. -/
def entornoUTC : Entorno := ⟨analizarFechaISO, 0, 1893978000000⟩

/-- A server six hours west of UTC at the same instant, which is
2030-01-06T19:00 of its local time, a Sunday. -/
def entornoOeste : Entorno := ⟨analizarFechaISO, -21600000, 1893978000000⟩

/-- A sample patient. -/
def pacienteEjemplo : Paciente := ⟨"P001", "Ana", "30", "5551234", "ana@correo.mx", "2029-12-01"⟩

/-- A sample doctor, working on Mondays from 09:00 to 12:00. -/
def doctorEjemplo : Doctor := ⟨"D001", "Luis", "Cardiología", "09:00", "12:00", ["Lunes"]⟩

/-- A sample booking request for the sample doctor. -/
def cuerpoEjemplo : CuerpoCita := ⟨none, "P001", "D001", "2030-01-07", "11:30", "Revisión"⟩


/-! ## The ordered checks of `validarCita`, as the specification lists them -/

/-- The six checks of a booking request, each evaluated on its own against
the snapshot, in the order of the specification, with the rejection each one
stands for.  The weekday and working-hours checks read the doctor record, so
they are evaluated only when the doctor id resolves. -/
def comprobaciones (e : Entorno) (pacientes : List Paciente) (doctores : List Doctor)
    (citas : List Cita) (body : CuerpoCita) : List (Bool × Respuesta) :=
  let doctor := doctores.find? (fun d => d.id == body.doctorId)
  [ ((pacientes.find? (fun p => p.id == body.pacienteId)).isNone,
      ⟨404, "Paciente no encontrado"⟩),
    (doctor.isNone, ⟨404, "Doctor no encontrado"⟩),
    (fechaAnterior (e.analizarFecha body.fecha) (hoy e),
      ⟨400, "La cita debe ser en una fecha futura"⟩),
    (match doctor with
      | some d => !(includes d.diasDisponibles (diaCita e body.fecha))
      | none => false,
      ⟨400, "El doctor no trabaja los " ++ enPlantilla (diaCita e body.fecha) ++ "s"⟩),
    (match doctor with
      | some d => menorQue (aMinutos body.hora) (aMinutos d.horarioInicio)
          || mayorIgual (aMinutos body.hora) (aMinutos d.horarioFin)
      | none => false,
      match doctor with
      | some d => ⟨400, "El doctor solo atiende de " ++ d.horarioInicio ++ " a " ++ d.horarioFin⟩
      | none => ⟨400, ""⟩),
    ((citaExistente citas body.doctorId body.fecha body.hora).isSome,
      ⟨400, "El doctor ya tiene una cita programada en este horario"⟩) ]

/-- The rejection of the earliest failing check, if any check fails. -/
def primeraFalla (cs : List (Bool × Respuesta)) : Option Respuesta :=
  (cs.find? (fun c => c.1)).map (fun c => c.2)

/-- All required keys of a booking request are present. -/
def camposPresentes (body : CuerpoCita) : Prop :=
  ¬(body.pacienteId = "" ∨ body.doctorId = "" ∨ body.fecha = "" ∨ body.hora = ""
      ∨ body.motivo = "")

instance (body : CuerpoCita) : Decidable (camposPresentes body) := by
  unfold camposPresentes
  exact inferInstance

/-- A clock time in the wire format `HH:MM`: two digits, a colon, two digits. -/
def esHHMM (s : String) : Bool :=
  match s.data with
  | [a, b, ':', c, d] => esDigito a && esDigito b && esDigito c && esDigito d
  | _ => false

/-- Minutes since midnight of an `HH:MM` text: hours times sixty plus minutes. -/
def minutosHHMM (s : String) : Nat :=
  match s.data with
  | [a, b, _, c, d] =>
    (valorDigito a * 10 + valorDigito b) * 60 + (valorDigito c * 10 + valorDigito d)
  | _ => 0

/-- The stored collection after a writing request: the new collection when the
request succeeded, the old one when it was rejected. -/
def almacenTras (citas : List Cita) (r : Except Respuesta (List Cita)) : List Cita :=
  match r with
  | .ok citas2 => citas2
  | .error _ => citas

/-- Number of the local calendar day of `ahora`, counted from 1970-01-01. -/
def diaLocalDeAhora (e : Entorno) : Int := (e.ahora + e.desfase) / msPorDia

/-! ## `GET /doctores/disponibles` -/

/-- The callback of the filter in `GET /doctores/disponibles`. -/
def estaDisponible (e : Entorno) (citas : List Cita) (fecha hora : String) (doctor : Doctor) :
    Bool :=
  if !(includes doctor.diasDisponibles (diaCita e fecha)) then false
  else if menorQue (aMinutos hora) (aMinutos doctor.horarioInicio)
      || mayorIgual (aMinutos hora) (aMinutos doctor.horarioFin) then false
  else (citaExistente citas doctor.id fecha hora).isNone

/-- The handler registered for `GET /doctores/disponibles` (line 551) with
query parameters `fecha` and `hora`, the empty text standing for an absent
one.  What the application answers on that path is `responderGet`. -/
def getDoctoresDisponibles (e : Entorno) (doctores : List Doctor) (citas : List Cita)
    (fecha hora : String) : Except Respuesta (List Doctor) :=
  if fecha = "" ∨ hora = "" then
    .error ⟨400, "Se requieren los parámetros fecha y hora"⟩
  else
    .ok (doctores.filter (estaDisponible e citas fecha hora))

/-- The availability rule and the conflict detector of the specification for
one doctor, on `HH:MM` texts: the weekday of the date is one of the doctor's
days, the time lies in the half-open window, and no appointment of the doctor
at that date and time is other than `cancelada`. -/
def libreSegunRegla (e : Entorno) (citas : List Cita) (fecha hora : String) (d : Doctor) : Prop :=
  (∃ dia, diaCita e fecha = some dia ∧ dia ∈ d.diasDisponibles)
  ∧ minutosHHMM d.horarioInicio ≤ minutosHHMM hora
  ∧ minutosHHMM hora < minutosHHMM d.horarioFin
  ∧ ∀ c ∈ citas, ¬(c.doctorId = d.id ∧ c.fecha = fecha ∧ c.hora = hora ∧ c.estado ≠ "cancelada")

/-! ## `POST /pacientes` -/

/-- The body of `POST /pacientes`.  `id` is the body's own `id` key when it
has one: the handler spreads the body after the generated id.  A body's
`fechaRegistro` key is not kept, the handler writes that field after the
spread. -/
structure CuerpoPaciente where
  id : Option String
  nombre : String
  edad : String
  telefono : String
  email : String
deriving DecidableEq, Repr

/-- The character class `[^\s@]` of the e-mail pattern. -/
def claseCorreo (c : Char) : Bool := !(esBlanco c) && c != '@'

/-- The test of the pattern `^[^\s@]+@[^\s@]+\.[^\s@]+$`: a non-empty run of
the class, an at sign, and a rest made of the class that has a dot with at
least one character on each side. -/
def correoValido (s : List Char) : Bool :=
  match s.span claseCorreo with
  | (usuario, '@' :: dominio) =>
    !usuario.isEmpty && dominio.all claseCorreo
      && (dominio.drop 1).dropLast.contains '.'
  | _ => false

/-- The middleware `validarPaciente`. -/
def validarPaciente (pacientes : List Paciente) (body : CuerpoPaciente) : Except Respuesta Unit :=
  if body.nombre = "" ∨ body.edad = "" ∨ body.telefono = "" ∨ body.email = "" then
    .error ⟨400, "Todos los campos son obligatorios: nombre, edad, telefono, email"⟩
  else
    if parseInt body.edad.data = .nan then
      .error ⟨400, "La edad debe ser un número válido"⟩
    else if menorOIgual (parseInt body.edad.data) (.entero 0) then
      .error ⟨400, "La edad debe ser mayor a 0"⟩
    else if !(correoValido body.email.data) then
      .error ⟨400, "El formato del email no es válido"⟩
    else
      match pacientes.find? (fun p => p.email == body.email) with
      | some _ => .error ⟨400, "Ya existe un paciente con este email"⟩
      | none => .ok ()

/-- The record `nuevoPaciente` of `POST /pacientes`:
`{ id: generarId('P', pacientes), ...req.body, fechaRegistro: ... }`, where
`hoyTexto` is the text `new Date().toISOString().split('T')[0]`. -/
def nuevoPaciente (hoyTexto : String) (pacientes : List Paciente) (body : CuerpoPaciente) :
    Paciente :=
  { id := body.id.getD (generarId "P" (pacientes.map (fun p => p.id)))
    nombre := body.nombre
    edad := body.edad
    telefono := body.telefono
    email := body.email
    fechaRegistro := hoyTexto }

/-- The route `POST /pacientes`: the middleware, then the append.  The result
is the stored collection after the request. -/
def postPacientes (hoyTexto : String) (pacientes : List Paciente) (body : CuerpoPaciente) :
    Except Respuesta (List Paciente) :=
  match validarPaciente pacientes body with
  | .error r => .error r
  | .ok _ => .ok (pacientes ++ [nuevoPaciente hoyTexto pacientes body])

/-- A run of registrations, each one reading the collection the previous one
stored; `none` as soon as one of them is rejected. -/
def registrar (pacientes : List Paciente) : List (String × CuerpoPaciente) → Option (List Paciente)
  | [] => some pacientes
  | (hoyTexto, body) :: resto =>
    match postPacientes hoyTexto pacientes body with
    | .ok pacientes2 => registrar pacientes2 resto
    | .error _ => none

/-- A number zero-padded to three digits, with the decimal rendering of the
standard library. -/
def tresCifras (n : Nat) : String :=
  String.mk (List.replicate (3 - (toString n).length) '0') ++ toString n

/-- The numeric remainder of an id once the first occurrence of the prefix
is taken out, an unparsable remainder counting as `0`. -/
def restoNumerico (prefijo id : String) : Int :=
  (enteroLeido (replace prefijo.data id.data)).getD 0

/-- The largest of `0` and the numeric remainders of the ids. -/
def mayorResto (prefijo : String) (ids : List String) : Int :=
  (ids.map (restoNumerico prefijo)).foldr max 0

/-- The id that the specification describes: the prefix followed by one more
than the largest numeric remainder, zero-padded to three digits. -/
def idSiguiente (prefijo : String) (ids : List String) : String :=
  prefijo ++ tresCifras (1 + mayorResto prefijo ids).toNat

/-- A sample registration request. -/
def cuerpoPacienteEjemplo : CuerpoPaciente := ⟨none, "Ana", "30", "5551234", "ana@correo.mx"⟩

/-- A second sample registration request. -/
def cuerpoPacienteDos : CuerpoPaciente := ⟨none, "Beto", "41", "5555678", "beto@correo.mx"⟩

/-- A registration request that carries an `id` key of its own. -/
def cuerpoPacienteConId : CuerpoPaciente := ⟨some "P005", "Ana", "30", "5551234", "ana@correo.mx"⟩

/-- The ids `P001`, `P002`, ... up to the `n`-th. -/
def idsEsperados (n : Nat) : List String :=
  (List.range n).map (fun k => "P" ++ tresCifras (k + 1))

/-! ## `GET /estadisticas/doctores` and `GET /estadisticas/especialidades` -/

/-- Insertion of an element in front of the first entry that the comparator
does not put before it. -/
def insertarOrdenado {α : Type} (cmp : α → α → Int) (a : α) : List α → List α
  | [] => [a]
  | b :: l => if cmp a b ≤ 0 then a :: b :: l else b :: insertarOrdenado cmp a l

/-- The host method `sort` with a comparator.  The host's sort is stable; for
a comparator that is a consistent ordering its result is the one of this
stable insertion sort, where entries that compare equal keep their order. -/
def sort {α : Type} (cmp : α → α → Int) : List α → List α
  | [] => []
  | a :: l => insertarOrdenado cmp a (sort cmp l)

/-- An entry of `citasPorDoctor`. -/
structure TotalDoctor where
  doctor : String
  especialidad : String
  totalCitas : Nat
deriving DecidableEq, Repr

/-- The list `citasPorDoctor` of `GET /estadisticas/doctores`: one entry
per doctor with the number of its appointments other than `cancelada`, sorted
with the comparator `(a, b) => b.totalCitas - a.totalCitas`. -/
def citasPorDoctor (doctores : List Doctor) (citas : List Cita) : List TotalDoctor :=
  sort (fun a b => (b.totalCitas : Int) - (a.totalCitas : Int))
    (doctores.map (fun doctor =>
      { doctor := doctor.nombre
        especialidad := doctor.especialidad
        totalCitas :=
          (citas.filter (fun c => c.doctorId == doctor.id && c.estado != "cancelada")).length }))

/-- The route `GET /estadisticas/doctores`: the value `citasPorDoctor[0] || {}`,
with `none` for the empty object. -/
def getEstadisticasDoctores (doctores : List Doctor) (citas : List Cita) : Option TotalDoctor :=
  (citasPorDoctor doctores citas).head?

/-- The statement `obj[k] = (obj[k] || 0) + 1` on an object that has key `k`
among its own properties or reads `undefined` for it; the object is given by
its own properties in creation order. -/
def incrementarPropia (k : String) : List (String × Nat) → List (String × Nat)
  | [] => [(k, 1)]
  | (k2, v) :: resto =>
    if k2 = k then (k2, v + 1) :: resto else (k2, v) :: incrementarPropia k resto

/-- The statement `obj[k] = (obj[k] || 0) + 1` on an object literal.  For the
key `__proto__` the read gives the prototype object and the write of the
resulting text is ignored by the setter, so the object stays as it is.  The
other names of members of `Object.prototype` (see `esHeredada`) read an
inherited function instead of `undefined`; they are outside this embedding. -/
def incrementar (k : String) (obj : List (String × Nat)) : List (String × Nat) :=
  if k = "__proto__" then obj else incrementarPropia k obj

/-- The object `especialidadesCount` after the `forEach` of
`GET /estadisticas/especialidades`, as its own properties in creation order. -/
def especialidadesCount (doctores : List Doctor) (citas : List Cita) : List (String × Nat) :=
  citas.foldl (fun obj cita =>
    if cita.estado != "cancelada" then
      match doctores.find? (fun d => d.id == cita.doctorId) with
      | some doctor => incrementar doctor.especialidad obj
      | none => obj
    else obj) []

/-- Array-index keys of the host: the canonical decimal text of an integer up
to `2 ^ 32 - 2`. -/
def esIndice (k : String) : Bool :=
  !k.data.isEmpty && k.data.all esDigito && (k == "0" || k.data.head? != some '0')
    && decide (valorDecimal k.data < 4294967295)

/-- The names of the members of `Object.prototype`. -/
def esHeredada (k : String) : Bool :=
  ["constructor", "__proto__", "hasOwnProperty", "isPrototypeOf", "propertyIsEnumerable",
    "toLocaleString", "toString", "valueOf", "__defineGetter__", "__defineSetter__",
    "__lookupGetter__", "__lookupSetter__"].contains k

/-- The host function `Object.entries`: array-index keys first, in ascending
numeric order, then the other keys in creation order. -/
def entries (obj : List (String × Nat)) : List (String × Nat) :=
  sort (fun a b => (valorDecimal a.1.data : Int) - (valorDecimal b.1.data : Int))
      (obj.filter (fun kv => esIndice kv.1))
    ++ obj.filter (fun kv => !(esIndice kv.1))

/-- The route `GET /estadisticas/especialidades`: the pair
`Object.entries(especialidadesCount).sort(([,a], [,b]) => b - a)[0] || ['', 0]`,
sent as `especialidad` and `totalCitas`. -/
def getEstadisticasEspecialidades (doctores : List Doctor) (citas : List Cita) : String × Nat :=
  ((sort (fun a b => (b.2 : Int) - (a.2 : Int))
    (entries (especialidadesCount doctores citas))).head?).getD ("", 0)

/-! ## The aggregations, as the specification words them -/

/-- Number of appointments with the doctor's id and `estado` other than
`cancelada`. -/
def citasActivasDe (citas : List Cita) (d : Doctor) : Nat :=
  citas.countP (fun c => c.doctorId == d.id && c.estado != "cancelada")

/-- The largest number of active appointments among the doctors. -/
def maximoDeCitas (doctores : List Doctor) (citas : List Cita) : Nat :=
  (doctores.map (citasActivasDe citas)).foldr max 0

/-- The first doctor, in the order of the collection, whose number of active
appointments is the largest. -/
def primerDoctorConMaximo (doctores : List Doctor) (citas : List Cita) : Option Doctor :=
  doctores.find? (fun d => citasActivasDe citas d == maximoDeCitas doctores citas)

/-- The specialties of the counted appointments, in the order of the
appointment collection: an appointment is counted when its `estado` is other
than `cancelada` and its `doctorId` resolves, and it counts for the specialty
of the first doctor with that id. -/
def especialidadesContadas (doctores : List Doctor) (citas : List Cita) : List String :=
  citas.filterMap (fun cita =>
    if cita.estado != "cancelada" then
      (doctores.find? (fun d => d.id == cita.doctorId)).map (fun d => d.especialidad)
    else none)

/-- The largest number of counted appointments of one specialty. -/
def maximoPorEspecialidad (contadas : List String) : Nat :=
  (contadas.map (fun e => contadas.count e)).foldr max 0

/-- The specialty with the largest count whose first counted appointment is
the earliest, with that count; the empty specialty with `0` when nothing is
counted. -/
def especialidadMasSolicitada (contadas : List String) : String × Nat :=
  match contadas.find? (fun e => contadas.count e == maximoPorEspecialidad contadas) with
  | some e => (e, maximoPorEspecialidad contadas)
  | none => ("", 0)

/-- Three sample doctors. -/
def tresDoctores : List Doctor :=
  [⟨"D001", "Uno", "Cardiología", "09:00", "12:00", ["Lunes"]⟩,
   ⟨"D002", "Dos", "Pediatría", "09:00", "12:00", ["Lunes"]⟩,
   ⟨"D003", "Tres", "Cardiología", "09:00", "12:00", ["Lunes"]⟩]

/-- Seven sample appointments: three active for `D003`, three active for
`D002`, and a cancelled one for `D001`. -/
def sieteCitas : List Cita :=
  [⟨"C001", "P001", "D003", "2030-01-07", "09:00", "a", "programada"⟩,
   ⟨"C002", "P001", "D002", "2030-01-07", "09:00", "b", "programada"⟩,
   ⟨"C003", "P001", "D003", "2030-01-07", "10:00", "c", "programada"⟩,
   ⟨"C004", "P001", "D002", "2030-01-07", "10:00", "d", "programada"⟩,
   ⟨"C005", "P001", "D001", "2030-01-07", "11:00", "e", "cancelada"⟩,
   ⟨"C006", "P001", "D003", "2030-01-07", "11:00", "f", "programada"⟩,
   ⟨"C007", "P001", "D002", "2030-01-07", "11:00", "g", "programada"⟩]

/-- The object that counting a list of keys one by one builds, as its own
properties in creation order. -/
def contar (claves : List String) : List (String × Nat) :=
  claves.foldl (fun obj k => incrementar k obj) []

/-- Two sample doctors whose specialty names are array-index keys. -/
def doctoresIndice : List Doctor :=
  [⟨"D001", "Uno", "2", "09:00", "12:00", ["Lunes"]⟩,
   ⟨"D002", "Dos", "1", "09:00", "12:00", ["Lunes"]⟩]

/-- A sample doctor whose specialty name is `__proto__`. -/
def doctoresProto : List Doctor :=
  [⟨"D001", "Uno", "__proto__", "09:00", "12:00", ["Lunes"]⟩]

/-- Two sample appointments, the first for `D001` and the second for `D002`. -/
def dosCitas : List Cita :=
  [⟨"C001", "P001", "D001", "2030-01-07", "09:00", "a", "programada"⟩,
   ⟨"C002", "P001", "D002", "2030-01-07", "10:00", "b", "programada"⟩]

/-! ## `GET /citas/proximas` -/

/-- Milliseconds in the window of `GET /citas/proximas`, `24 * 60 * 60 * 1000`. -/
def msVentana : Int := 24 * 60 * 60 * 1000

/-- The date `fechaCita` of the filter callback in `GET /citas/proximas`,
`new Date(fecha + 'T' + hora)` written there as a template literal. -/
def fechaHoraCita (e : Entorno) (cita : Cita) : Option Int :=
  e.analizarFecha (cita.fecha ++ "T" ++ cita.hora)

/-- The host comparison `a > b` of a date with an instant, false for an
invalid date. -/
def fechaPosterior (fechaCita : Option Int) (limite : Int) : Bool :=
  match fechaCita with
  | some t => decide (limite < t)
  | none => false

/-- The host comparison `a <= b` of a date with an instant, false for an
invalid date. -/
def fechaNoPosterior (fechaCita : Option Int) (limite : Int) : Bool :=
  match fechaCita with
  | some t => decide (t ≤ limite)
  | none => false

/-- The callback of the filter in `GET /citas/proximas`, where `mañana` is
`ahora` plus twenty-four hours. -/
def esProxima (e : Entorno) (cita : Cita) : Bool :=
  if cita.estado != "programada" then false
  else fechaPosterior (fechaHoraCita e cita) e.ahora
    && fechaNoPosterior (fechaHoraCita e cita) (e.ahora + msVentana)

/-- The handler registered for `GET /citas/proximas` (line 605): the list sent
as `data`.  What the application answers on that path is `responderGet`. -/
def getCitasProximas (e : Entorno) (citas : List Cita) : List Cita :=
  citas.filter (esProxima e)

/-- The upcoming window, as the specification words it: the appointment is
`programada` and its combined date and time has a timestamp `t` with
`now < t <= now + 24h`. -/
def enVentana (e : Entorno) (cita : Cita) : Prop :=
  cita.estado = "programada"
  ∧ ∃ t, fechaHoraCita e cita = some t ∧ e.ahora < t ∧ t ≤ e.ahora + 86400000

/-- The host's reading of a date-time text `YYYY-MM-DDTHH:MM` with no offset:
that wall-clock time of the local zone.  A date-only text is read as by
`analizarFechaISO`, and any other text is taken as an invalid date; it serves
as the parser of the concrete environments below, whose texts are all of these
forms. -/
def analizarFechaHora (desfase : Int) (s : String) : Option Int :=
  match split 'T' s.data with
  | [fecha] => analizarFechaISO (String.mk fecha)
  | [fecha, [h1, h2, ':', n1, n2]] =>
    if [h1, h2, n1, n2].all esDigito then
      let h := valorDecimal [h1, h2]
      let n := valorDecimal [n1, n2]
      if h ≤ 23 ∧ n ≤ 59 then
        (analizarFechaISO (String.mk fecha)).map
          (fun t => t + ((h : Int) * 60 + (n : Int)) * 60000 - desfase)
      else none
    else none
  | _ => none

/-- A server on UTC at 2030-01-07T01:00:00Z that reads date-time texts. -/
def entornoProximas : Entorno := ⟨analizarFechaHora 0, 0, 1893978000000⟩

/-- The same server one second earlier. -/
def entornoProximasAntes : Entorno := ⟨analizarFechaHora 0, 0, 1893977999000⟩

/-- A sample appointment of the sample doctor at a given date and time. -/
def citaEn (id fecha hora estado : String) : Cita :=
  ⟨id, "P001", "D001", fecha, hora, "Revisión", estado⟩

/-- Five sample appointments: one at 2030-01-08 01:00, one at 2030-01-07
01:00, one at 2030-01-07 12:00 that is cancelled, one at 2030-01-07 12:00
and one at 2030-01-09 09:00. -/
def citasProximasEjemplo : List Cita :=
  [citaEn "C001" "2030-01-08" "01:00" "programada",
   citaEn "C002" "2030-01-07" "01:00" "programada",
   citaEn "C003" "2030-01-07" "12:00" "cancelada",
   citaEn "C004" "2030-01-07" "12:00" "programada",
   citaEn "C005" "2030-01-09" "09:00" "programada"]

/-! ## The `GET` routes of the application -/

/-- A segment of a route path: fixed text or a named parameter. -/
inductive Segmento where
  | fijo (texto : String)
  | parametro (nombre : String)
deriving DecidableEq, Repr

/-- The handlers given to `app.get` in `server.js`, named by the route path
each one is registered with. -/
inductive ManejadorGet where
  | raiz
  | pacientes
  | pacientesId
  | pacientesIdHistorial
  | doctores
  | doctoresId
  | doctoresEspecialidad
  | citas
  | citasId
  | citasDoctor
  | estadisticasDoctores
  | estadisticasEspecialidades
  | doctoresDisponibles
  | citasProximas
deriving DecidableEq, Repr

/-- The calls of `app.get` in `server.js`, in the order of the source (lines
190, 249, 258, 298, 342, 351, 369, 403, 422, 469, 498, 520, 551 and 605): the
framework tries them in this order. -/
def rutasGet : List (List Segmento × ManejadorGet) :=
  [([], .raiz),
   ([.fijo "pacientes"], .pacientes),
   ([.fijo "pacientes", .parametro "id"], .pacientesId),
   ([.fijo "pacientes", .parametro "id", .fijo "historial"], .pacientesIdHistorial),
   ([.fijo "doctores"], .doctores),
   ([.fijo "doctores", .parametro "id"], .doctoresId),
   ([.fijo "doctores", .fijo "especialidad", .parametro "especialidad"], .doctoresEspecialidad),
   ([.fijo "citas"], .citas),
   ([.fijo "citas", .parametro "id"], .citasId),
   ([.fijo "citas", .fijo "doctor", .parametro "doctorId"], .citasDoctor),
   ([.fijo "estadisticas", .fijo "doctores"], .estadisticasDoctores),
   ([.fijo "estadisticas", .fijo "especialidades"], .estadisticasEspecialidades),
   ([.fijo "doctores", .fijo "disponibles"], .doctoresDisponibles),
   ([.fijo "citas", .fijo "proximas"], .citasProximas)]

/-- Lower-casing of the capital letters `A` to `Z`: the framework compares the
fixed text of a route without regard to their case. -/
def minusculas (s : String) : String := String.mk (s.data.map Char.toLower)

/-- Matching of a route path against a request path, both as their segments
between slashes: fixed text is compared without regard to case and a parameter
takes one segment that is not empty.  The result is `req.params`. -/
def coincide : List Segmento → List String → Option (List (String × String))
  | [], [] => some []
  | .fijo texto :: ruta, s :: resto =>
    if minusculas s = minusculas texto then coincide ruta resto else none
  | .parametro nombre :: ruta, s :: resto =>
    if s = "" then none else (coincide ruta resto).map (fun params => (nombre, s) :: params)
  | _, _ => none

/-- The handler that answers a `GET` request and its `req.params`: the first
registration that the request path matches, none of the handlers passing the
request on with `next()`. -/
def encaminarGet (ruta : List String) : Option (ManejadorGet × List (String × String)) :=
  rutasGet.findSome? (fun r => (coincide r.1 ruta).map (fun params => (r.2, params)))

/-- The value of `req.params[nombre]`. -/
def parametro (params : List (String × String)) (nombre : String) : String :=
  ((params.find? (fun kv => kv.1 == nombre)).map (fun kv => kv.2)).getD ""

/-- The handler of `GET /doctores/:id`. -/
def getDoctoresId (doctores : List Doctor) (id : String) : Except Respuesta Doctor :=
  match doctores.find? (fun d => d.id == id) with
  | none => .error ⟨404, "Doctor no encontrado"⟩
  | some doctor => .ok doctor

/-- The handler of `GET /citas/:id`. -/
def getCitasId (citas : List Cita) (id : String) : Except Respuesta Cita :=
  match citas.find? (fun c => c.id == id) with
  | none => .error ⟨404, "Cita no encontrada"⟩
  | some cita => .ok cita

/-- What the application sends back to a `GET` request. -/
inductive RespuestaGet where
  /-- Answer of the handler of `/doctores/:id`. -/
  | doctor (r : Except Respuesta Doctor)
  /-- Answer of the handler of `/citas/:id`. -/
  | cita (r : Except Respuesta Cita)
  /-- Answer of the handler of `/doctores/disponibles`. -/
  | disponibles (r : Except Respuesta (List Doctor))
  /-- Answer of the handler of `/citas/proximas`. -/
  | proximas (r : List Cita)
  /-- Answer of the handler of `/estadisticas/doctores`. -/
  | masCitas (r : Option TotalDoctor)
  /-- Answer of the handler of `/estadisticas/especialidades`. -/
  | masSolicitada (r : String × Nat)
  /-- Answer of one of the other handlers, whose bodies are not part of this
  development. -/
  | de (m : ManejadorGet)
  /-- Answer of the final `app.use`: status 404, `Endpoint no encontrado`. -/
  | sinRuta
deriving DecidableEq, Repr

/-- The application on a `GET` request with no body: request path by its
segments, query parameters `fecha` and `hora` with the empty text for one that
is absent. -/
def responderGet (e : Entorno) (doctores : List Doctor) (citas : List Cita)
    (ruta : List String) (fecha hora : String) : RespuestaGet :=
  match encaminarGet ruta with
  | none => .sinRuta
  | some (.doctoresId, params) => .doctor (getDoctoresId doctores (parametro params "id"))
  | some (.citasId, params) => .cita (getCitasId citas (parametro params "id"))
  | some (.doctoresDisponibles, _) =>
    .disponibles (getDoctoresDisponibles e doctores citas fecha hora)
  | some (.citasProximas, _) => .proximas (getCitasProximas e citas)
  | some (.estadisticasDoctores, _) => .masCitas (getEstadisticasDoctores doctores citas)
  | some (.estadisticasEspecialidades, _) =>
    .masSolicitada (getEstadisticasEspecialidades doctores citas)
  | some (m, _) => .de m

/-! ## Theorems -/

/-! ### Doubles that are exact -/

/-- A number below `2 ^ b` has at most `b` binary digits. -/
theorem bitsAux_le (fuel : Nat) : ∀ n b : Nat, n < 2 ^ b → bitsAux fuel n ≤ b := by
  induction fuel with
  | zero => intro n b _; simp [bitsAux]
  | succ fuel ih =>
    intro n b h
    unfold bitsAux
    split
    · omega
    · cases b with
      | zero => simp at h; omega
      | succ b =>
        have h2 : n / 2 < 2 ^ b := by
          rw [pow_succ] at h
          omega
        have := ih (n / 2) b h2
        omega

/-- A number below `2 ^ b` has at most `b` binary digits. -/
theorem bits_le {n b : Nat} (h : n < 2 ^ b) : bits n ≤ b := bitsAux_le n n b h

/-- A natural number below `2 ^ 53` times the denominator rounds to itself. -/
theorem redondear_exacto {n b : Nat} (hn : n < 2 ^ 53) (hb : 0 < b) :
    redondear (n * b) b = n <<< 1074 := by
  unfold redondear
  simp only [Nat.shiftLeft_eq]
  have hq : n * b * 2 ^ 1074 / b = n * 2 ^ 1074 := by
    rw [Nat.mul_right_comm, Nat.mul_div_cancel _ hb]
  rw [hq]
  have hbits : bits (n * 2 ^ 1074) ≤ 1127 := by
    apply bits_le
    calc n * 2 ^ 1074 < 2 ^ 53 * 2 ^ 1074 := Nat.mul_lt_mul_of_pos_right hn (by positivity)
      _ = 2 ^ 1127 := by rw [← pow_add]
  have hs : bits (n * 2 ^ 1074) - 53 ≤ 1074 := by omega
  generalize bits (n * 2 ^ 1074) - 53 = s at hs ⊢
  have hpow : (2 : Nat) ^ 1074 = 2 ^ s * 2 ^ (1074 - s) := by
    rw [← pow_add]
    congr 1
    omega
  have hA : n * b * 2 ^ 1074 = b * 2 ^ s * (n * 2 ^ (1074 - s)) := by
    rw [hpow]
    ring
  have hD : 0 < b * 2 ^ s := Nat.mul_pos hb (by positivity)
  rw [hA, Nat.mul_mod_right, Nat.mul_div_cancel_left _ hD]
  have hno : ¬ (b * 2 ^ s < 2 * 0 ∨ (2 * 0 = b * 2 ^ s ∧ n * 2 ^ (1074 - s) % 2 = 1)) := by
    omega
  rw [if_neg hno, hpow]
  ring

/-- A natural number below `2 ^ 53`, given as a fraction, is read exactly. -/
theorem deRacional_exacto {n b : Nat} (hn : n < 2 ^ 53) (hb : 0 < b) :
    deRacional false (n * b) b = deNatural n := by
  unfold deRacional deNatural
  rw [redondear_exacto hn hb]
  have hbits : bits (n <<< 1074) ≤ 1127 := by
    apply bits_le
    rw [Nat.shiftLeft_eq]
    calc n * 2 ^ 1074 < 2 ^ 53 * 2 ^ 1074 := Nat.mul_lt_mul_of_pos_right hn (by positivity)
      _ = 2 ^ 1127 := by rw [← pow_add]
  have hno : ¬ 2098 < bits (n <<< 1074) := by omega
  simp [hno]

/-- The product of two natural numbers is exact when it is below `2 ^ 53`. -/
theorem producto_deNatural {x y : Nat} (h : x * y < 2 ^ 53) :
    producto (deNatural x) (deNatural y) = deNatural (x * y) := by
  unfold producto deNatural
  simp only [Int.natAbs_ofNat, Nat.shiftLeft_eq]
  have hx : ¬ ((x * 2 ^ 1074 : Nat) : Int) < 0 := by omega
  have hy : ¬ ((y * 2 ^ 1074 : Nat) : Int) < 0 := by omega
  simp only [hx, hy, decide_False, bne_self_eq_false]
  have hform : x * 2 ^ 1074 * (y * 2 ^ 1074) = x * y * (1 * 2 ^ 2148) := by
    have : (2 : Nat) ^ 2148 = 2 ^ 1074 * 2 ^ 1074 := by rw [← pow_add]
    rw [this]
    ring
  rw [hform, deRacional_exacto h (by positivity)]
  simp [deNatural, Nat.shiftLeft_eq]

/-- The sum of two natural numbers is exact when it is below `2 ^ 53`. -/
theorem suma_deNatural {x y : Nat} (h : x + y < 2 ^ 53) :
    suma (deNatural x) (deNatural y) = deNatural (x + y) := by
  unfold suma deNatural
  simp only [Nat.shiftLeft_eq]
  have hsum : ((x * 2 ^ 1074 : Nat) : Int) + ((y * 2 ^ 1074 : Nat) : Int)
      = (((x + y) * (1 * 2 ^ 1074) : Nat) : Int) := by
    push_cast
    ring
  rw [hsum]
  have hpos : ¬ ((((x + y) * (1 * 2 ^ 1074) : Nat) : Int) < 0) := by omega
  simp only [hpos, decide_False, Int.natAbs_ofNat]
  rw [deRacional_exacto h (by positivity)]
  simp [deNatural, Nat.shiftLeft_eq]

/-- The order of the host on natural numbers is the order of the numbers. -/
theorem menorQue_deNatural (x y : Nat) :
    menorQue (deNatural x) (deNatural y) = decide (x < y) := by
  unfold menorQue deNatural
  simp only [Nat.shiftLeft_eq, Nat.cast_lt]
  have h : x * 2 ^ 1074 < y * 2 ^ 1074 ↔ x < y :=
    Nat.mul_lt_mul_right (by positivity)
  simp [h]

/-- The order of the host on natural numbers is the order of the numbers. -/
theorem mayorIgual_deNatural (x y : Nat) :
    mayorIgual (deNatural x) (deNatural y) = decide (y ≤ x) := by
  unfold mayorIgual deNatural
  simp only [Nat.shiftLeft_eq, Nat.cast_le]
  have h : y * 2 ^ 1074 ≤ x * 2 ^ 1074 ↔ y ≤ x :=
    ⟨fun h => Nat.le_of_mul_le_mul_right h (by positivity), fun h => Nat.mul_le_mul_right _ h⟩
  simp [h]

/-- A decimal digit is no blank, no sign and no letter, and is a digit of
base ten with its decimal value. -/
theorem esDigito_hechos {c : Char} (h : esDigito c = true) :
    esBlanco c = false ∧ c ≠ '-' ∧ c ≠ '+' ∧ c ≠ 'x' ∧ c ≠ 'X'
    ∧ esCifra 10 c = true ∧ valorCifra c = some (valorDigito c) := by
  have h2 := h
  simp only [esDigito, Bool.and_eq_true, decide_eq_true_eq] at h2
  refine ⟨?_, ?_, ?_, ?_, ?_, ?_, ?_⟩
  · simp only [esBlanco, Bool.or_eq_false_iff, Bool.and_eq_false_iff, decide_eq_false_iff_not]
    refine ⟨?_, by omega⟩
    simp only [List.contains_cons, List.contains_nil, Bool.or_false, Bool.or_eq_false_iff,
      beq_eq_false_iff_ne, ne_eq]
    omega
  · rintro rfl; exact absurd h (by decide)
  · rintro rfl; exact absurd h (by decide)
  · rintro rfl; exact absurd h (by decide)
  · rintro rfl; exact absurd h (by decide)
  · have hlt : c.toNat - 48 < 10 := by omega
    simp [esCifra, valorCifra, h, hlt]
  · simp [valorCifra, h, valorDigito]

/-- A decimal digit is none of the letters that mark a radix or an exponent,
nor the point. -/
theorem esDigito_no_letra {c : Char} (h : esDigito c = true) :
    c ≠ 'o' ∧ c ≠ 'O' ∧ c ≠ 'b' ∧ c ≠ 'B' ∧ c ≠ 'e' ∧ c ≠ 'E' ∧ c ≠ '.' ∧ c ≠ 'I' := by
  refine ⟨?_, ?_, ?_, ?_, ?_, ?_, ?_, ?_⟩ <;> (rintro rfl; exact absurd h (by decide))

/-- The value of a decimal digit is at most nine. -/
theorem valorDigito_le {c : Char} (h : esDigito c = true) : valorDigito c ≤ 9 := by
  simp only [esDigito, Bool.and_eq_true, decide_eq_true_eq] at h
  unfold valorDigito
  omega

/-- The host function `Number` reads two decimal digits as their value. -/
theorem Number_dos_digitos {a b : Char} (ha : esDigito a = true) (hb : esDigito b = true) :
    Number [a, b] = deNatural (valorDigito a * 10 + valorDigito b) := by
  obtain ⟨hab, ham, hap, _, _, _, _⟩ := esDigito_hechos ha
  obtain ⟨hbb, _, _, hbx, hbX, _, _⟩ := esDigito_hechos hb
  obtain ⟨hbo, hbO, hbb2, hbB, _, _, _, _⟩ := esDigito_no_letra hb
  have hrec : recortar [a, b] = [a, b] := by
    simp [recortar, List.dropWhile_cons, hab, hbb]
  have hrad : leerConRadix [a, b] = none := by
    unfold leerConRadix
    split
    · rename_i c ds heq
      injection heq with _ heq
      injection heq with heq _
      subst heq
      simp [hbx, hbX, hbo, hbO, hbb2, hbB]
    · rfl
  have hneg : (match [a, b] with
      | '-' :: _ => true
      | _ => false) = false := by
    split
    · rename_i heq
      injection heq with heq _
      exact absurd heq ham
    · rfl
  have hu : (match [a, b] with
      | '-' :: r => r
      | '+' :: r => r
      | r => r) = [a, b] := by
    split
    · rename_i heq
      injection heq with heq _
      exact absurd heq ham
    · rename_i heq
      injection heq with heq _
      exact absurd heq hap
    · rfl
  have hdec : leerDecimal [a, b] = deNatural (valorDigito a * 10 + valorDigito b) := by
    unfold leerDecimal
    simp only [hneg, hu]
    have hinf : ¬ [a, b] = ['I', 'n', 'f', 'i', 'n', 'i', 't', 'y'] := by simp
    have hval : valorDecimal [a, b] = valorDigito a * 10 + valorDigito b := by
      simp [valorDecimal]
    have hlt : valorDigito a * 10 + valorDigito b < 2 ^ 53 := by
      have h1 := valorDigito_le ha
      have h2 := valorDigito_le hb
      have : (2 : Nat) ^ 53 = 9007199254740992 := by norm_num
      omega
    simp only [hinf, ↓reduceIte, List.takeWhile_cons, ha, hb, List.takeWhile_nil,
      List.dropWhile_cons, List.dropWhile_nil, leerFraccion, List.isEmpty_cons,
      Bool.false_and, Bool.false_eq_true, leerExponente, List.append_nil, List.length_nil,
      Nat.cast_zero, sub_zero, le_refl, Int.toNat_zero, pow_zero, hval]
    exact deRacional_exacto hlt (by decide)
  unfold Number
  simp only [hrec, List.isEmpty_cons, Bool.false_eq_true, ↓reduceIte, hrad, hdec]

/-- A request that passes `validarCita` found no live appointment in its slot. -/
theorem validarCita_ok_citaExistente {e : Entorno} {pacientes : List Paciente}
    {doctores : List Doctor} {citas : List Cita} {body : CuerpoCita} {r : Paciente × Doctor}
    (h : validarCita e pacientes doctores citas body = .ok r) :
    citaExistente citas body.doctorId body.fecha body.hora = none := by
  unfold validarCita at h
  split at h
  · cases h
  · split at h
    · cases h
    · split at h
      · cases h
      · split at h
        · cases h
        · split at h
          · cases h
          · split at h
            · cases h
            · split at h
              · cases h
              · assumption

/-- No appointment of a slot is `programada` when the slot has no live
appointment. -/
theorem programadasEn_nil_of_citaExistente {citas : List Cita} {d f h : String}
    (hc : citaExistente citas d f h = none) : programadasEn citas d f h = [] := by
  unfold citaExistente at hc
  unfold programadasEn
  rw [List.filter_eq_nil_iff]
  intro c hmem hp
  have hnone := List.find?_eq_none.mp hc c hmem
  simp only [Bool.and_eq_true, beq_iff_eq, bne_iff_ne, ne_eq, not_and, Decidable.not_not]
    at hnone hp
  obtain ⟨⟨⟨h1, h2⟩, h3⟩, h4⟩ := hp
  have h5 := hnone ⟨⟨h1, h2⟩, h3⟩
  rw [h5] at h4
  exact absurd h4 (by decide)

/-- Overwriting the status of one entry by `cancelada` does not lengthen the
list of `programada` appointments of any slot. -/
theorem programadasEn_set_cancelada (citas : List Cita) (i : Nat) (c : Cita) (d f h : String) :
    (programadasEn (citas.set i { c with estado := "cancelada" }) d f h).length
      ≤ (programadasEn citas d f h).length := by
  induction citas generalizing i with
  | nil => simp [programadasEn]
  | cons x xs ih =>
    cases i with
    | zero =>
      simp only [List.set_cons_zero, programadasEn, List.filter_cons]
      have hfalse : (("cancelada" : String) == "programada") = false := by decide
      simp only [hfalse, Bool.and_false, Bool.false_eq_true, ↓reduceIte]
      split
      · simp
      · simp
    | succ j =>
      have ih2 := ih j
      simp only [programadasEn] at ih2
      simp only [List.set_cons_succ, programadasEn, List.filter_cons]
      split
      · simpa using ih2
      · exact ih2

/-- A successful booking keeps slot uniqueness. -/
theorem postCitas_SlotUnico {e : Entorno} {pacientes : List Paciente} {doctores : List Doctor}
    {citas citas2 : List Cita} {body : CuerpoCita} (hinv : SlotUnico citas)
    (h : postCitas e pacientes doctores citas body = .ok citas2) : SlotUnico citas2 := by
  unfold postCitas at h
  split at h
  · cases h
  · rename_i r hv
    injection h with h
    subst h
    have hlibre := programadasEn_nil_of_citaExistente (validarCita_ok_citaExistente hv)
    intro d f hh
    by_cases hslot : body.doctorId = d ∧ body.fecha = f ∧ body.hora = hh
    · obtain ⟨h1, h2, h3⟩ := hslot
      subst h1 h2 h3
      simp only [programadasEn, List.filter_append] at hlibre ⊢
      rw [hlibre]
      simp only [List.nil_append]
      exact (List.length_filter_le _ _).trans (by simp)
    · have hnueva : programadasEn [nuevaCita citas body] d f hh = [] := by
        simp only [programadasEn, nuevaCita, List.filter_cons, List.filter_nil]
        split
        · rename_i hp
          simp only [Bool.and_eq_true, beq_iff_eq] at hp
          exact absurd ⟨hp.1.1.1, hp.1.1.2, hp.1.2⟩ hslot
        · rfl
      have := hinv d f hh
      simp only [programadasEn, List.filter_append, List.length_append] at hnueva this ⊢
      rw [hnueva]
      simpa using this

/-- A cancellation keeps slot uniqueness. -/
theorem putCitasCancelar_SlotUnico {citas citas2 : List Cita} {id : String}
    (hinv : SlotUnico citas) (h : putCitasCancelar citas id = .ok citas2) :
    SlotUnico citas2 := by
  unfold putCitasCancelar at h
  simp only at h
  split at h
  · cases h
  · split at h
    · cases h
    · injection h with h
      subst h
      intro d f hh
      exact (programadasEn_set_cancelada citas _ _ d f hh).trans (hinv d f hh)

/-- C1. Slot uniqueness is an invariant of the appointment store: a successful
booking through `POST /citas` and a cancellation through
`PUT /citas/:id/cancelar` both take a collection with at most one `programada`
appointment per `(doctorId, fecha, hora)` to a collection with the same
property, and so every collection reachable from the empty store has it. -/
theorem C1_slot_unico_invariante :
    (∀ (e : Entorno) (pacientes : List Paciente) (doctores : List Doctor)
        (citas citas2 : List Cita) (body : CuerpoCita),
        SlotUnico citas → postCitas e pacientes doctores citas body = .ok citas2 →
        SlotUnico citas2)
    ∧ (∀ (citas citas2 : List Cita) (id : String),
        SlotUnico citas → putCitasCancelar citas id = .ok citas2 → SlotUnico citas2)
    ∧ (∀ citas : List Cita, Alcanzable citas → SlotUnico citas) := by
  refine ⟨fun _ _ _ _ _ _ hinv h => postCitas_SlotUnico hinv h,
    fun _ _ _ hinv h => putCitasCancelar_SlotUnico hinv h, ?_⟩
  intro citas hreach
  induction hreach with
  | vacio => intro d f h; simp [programadasEn]
  | agendar e pacientes doctores body _ h ih => exact postCitas_SlotUnico ih h
  | cancelar id _ h ih => exact putCitasCancelar_SlotUnico ih h

/-- C1 at a concrete run: the sample booking into the empty store, then its
cancellation by the id `C001` it was given. -/
theorem C1_slot_unico_invariante_witness :
    SlotUnico [nuevaCita [] cuerpoEjemplo]
    ∧ SlotUnico [{ nuevaCita [] cuerpoEjemplo with estado := "cancelada" }]
    ∧ SlotUnico [{ nuevaCita [] cuerpoEjemplo with estado := "cancelada" }] :=
  have h0 : SlotUnico [] := fun _ _ _ => by simp [programadasEn]
  have h1 : postCitas entornoUTC [pacienteEjemplo] [doctorEjemplo] [] cuerpoEjemplo
      = .ok [nuevaCita [] cuerpoEjemplo] := by decide
  have h2 : putCitasCancelar [nuevaCita [] cuerpoEjemplo] "C001"
      = .ok [{ nuevaCita [] cuerpoEjemplo with estado := "cancelada" }] := by decide
  ⟨C1_slot_unico_invariante.1 entornoUTC [pacienteEjemplo] [doctorEjemplo] [] _ cuerpoEjemplo h0 h1,
    C1_slot_unico_invariante.2.1 _ _ "C001"
      (C1_slot_unico_invariante.1 entornoUTC [pacienteEjemplo] [doctorEjemplo] [] _
        cuerpoEjemplo h0 h1) h2,
    C1_slot_unico_invariante.2.2 _
      (Alcanzable.cancelar "C001"
        (Alcanzable.agendar entornoUTC [pacienteEjemplo] [doctorEjemplo] cuerpoEjemplo
          Alcanzable.vacio h1) h2)⟩


/-- C2. First failure wins: a request with all required keys present is
rejected with the reason of the earliest failing check in the order patient
not found, doctor not found, past date, weekday, working hours, slot taken; it
is accepted exactly when none of the six checks fails; and a request whose
patient and doctor are both unknown is reported as patient not found. -/
theorem C2_primera_falla (e : Entorno) (pacientes : List Paciente) (doctores : List Doctor)
    (citas : List Cita) (body : CuerpoCita) (hcampos : camposPresentes body) :
    (∀ r, primeraFalla (comprobaciones e pacientes doctores citas body) = some r →
        validarCita e pacientes doctores citas body = .error r)
    ∧ ((∃ pd, validarCita e pacientes doctores citas body = .ok pd) ↔
        ∀ c ∈ comprobaciones e pacientes doctores citas body, c.1 = false)
    ∧ (pacientes.find? (fun p => p.id == body.pacienteId) = none →
        doctores.find? (fun d => d.id == body.doctorId) = none →
        validarCita e pacientes doctores citas body = .error ⟨404, "Paciente no encontrado"⟩) := by
  unfold camposPresentes at hcampos
  unfold validarCita primeraFalla comprobaciones
  simp only [hcampos, ↓reduceIte]
  cases hp : pacientes.find? (fun p => p.id == body.pacienteId) with
  | none => simp
  | some p =>
    cases hd : doctores.find? (fun d => d.id == body.doctorId) with
    | none => simp
    | some d =>
      simp only []
      generalize fechaAnterior (e.analizarFecha body.fecha) (hoy e) = b3
      generalize includes d.diasDisponibles (diaCita e body.fecha) = b4
      generalize (menorQue (aMinutos body.hora) (aMinutos d.horarioInicio)
              || mayorIgual (aMinutos body.hora) (aMinutos d.horarioFin)) = b5
      generalize citaExistente citas body.doctorId body.fecha body.hora = c6
      cases b3 <;> cases b4 <;> cases b5 <;> cases c6 <;> simp

/-- C2 at the sample request: every key is present, and patient and doctor
are both unknown in the empty collections. -/
theorem C2_primera_falla_witness :
    validarCita entornoUTC [] [] [] cuerpoEjemplo = .error ⟨404, "Paciente no encontrado"⟩ :=
  (C2_primera_falla entornoUTC [] [] [] cuerpoEjemplo (by decide)).2.2 rfl rfl

/-- A decimal digit is not the colon. -/
theorem esDigito_ne_colon {c : Char} (h : esDigito c = true) : c ≠ ':' := by
  rintro rfl
  exact absurd h (by decide)

/-- On an `HH:MM` text the split-and-convert expression of the handlers yields
hours times sixty plus minutes. -/
theorem aMinutos_of_esHHMM {s : String} (h : esHHMM s = true) :
    aMinutos s = deNatural (minutosHHMM s) := by
  unfold esHHMM at h
  unfold aMinutos minutosHHMM
  split at h
  · rename_i a b c d heq
    simp only [Bool.and_eq_true] at h
    obtain ⟨⟨⟨ha, hb⟩, hc⟩, hd⟩ := h
    rw [heq]
    have hsplit : split ':' [a, b, ':', c, d] = [[a, b], [c, d]] := by
      simp [split, esDigito_ne_colon ha, esDigito_ne_colon hb, esDigito_ne_colon hc,
        esDigito_ne_colon hd]
    have h1 := valorDigito_le ha
    have h2 := valorDigito_le hb
    have h3 := valorDigito_le hc
    have h4 := valorDigito_le hd
    have hpow : (2 : Nat) ^ 53 = 9007199254740992 := by norm_num
    simp only [hsplit, List.map_cons, List.map_nil, Number_dos_digitos ha hb,
      Number_dos_digitos hc hd]
    rw [producto_deNatural (by omega), suma_deNatural (by omega)]
  · cases h

/-- The working-hours test of the handlers on `HH:MM` texts is the half-open
window on minutes. -/
theorem ventana_of_esHHMM {hora inicio fin : String} (hh : esHHMM hora = true)
    (hi : esHHMM inicio = true) (hf : esHHMM fin = true) :
    (menorQue (aMinutos hora) (aMinutos inicio) || mayorIgual (aMinutos hora) (aMinutos fin))
        = false
      ↔ minutosHHMM inicio ≤ minutosHHMM hora ∧ minutosHHMM hora < minutosHHMM fin := by
  rw [aMinutos_of_esHHMM hh, aMinutos_of_esHHMM hi, aMinutos_of_esHHMM hf,
    menorQue_deNatural, mayorIgual_deNatural]
  simp

/-- The weekday and working-hours checks of `validarCita`, with the weekday
that the code computes, `diasSemana[fechaCita.getDay()]`: for a request whose
keys are present, whose patient and doctor resolve and whose date is not
rejected as past, and for `HH:MM` texts as time and as the doctor's bounds,
`validarCita` accepts a free slot exactly when that weekday name is in
`diasDisponibles` and `startMinutes <= timeMinutes < endMinutes`; a time equal
to `horarioFin` is rejected, a time equal to `horarioInicio` is accepted, and
a computed weekday outside `diasDisponibles` is rejected with the weekday
reason whatever the time text is. Only on a server at or east of UTC is the
computed weekday of a date-only text that of the calendar day it names. -/
theorem validarCita_segun_diaCita (e : Entorno) (pacientes : List Paciente)
    (doctores : List Doctor) (citas : List Cita) (body : CuerpoCita) (p : Paciente) (d : Doctor)
    (hcampos : camposPresentes body)
    (hp : pacientes.find? (fun p => p.id == body.pacienteId) = some p)
    (hd : doctores.find? (fun d => d.id == body.doctorId) = some d)
    (hfecha : fechaAnterior (e.analizarFecha body.fecha) (hoy e) = false) :
    (esHHMM body.hora = true → esHHMM d.horarioInicio = true → esHHMM d.horarioFin = true →
      citaExistente citas body.doctorId body.fecha body.hora = none →
      (validarCita e pacientes doctores citas body = .ok (p, d) ↔
        (∃ dia, diaCita e body.fecha = some dia ∧ dia ∈ d.diasDisponibles)
        ∧ minutosHHMM d.horarioInicio ≤ minutosHHMM body.hora
        ∧ minutosHHMM body.hora < minutosHHMM d.horarioFin))
    ∧ (esHHMM body.hora = true → esHHMM d.horarioInicio = true → esHHMM d.horarioFin = true →
      minutosHHMM body.hora = minutosHHMM d.horarioFin →
      ∃ r, validarCita e pacientes doctores citas body = .error r)
    ∧ (esHHMM body.hora = true → esHHMM d.horarioInicio = true → esHHMM d.horarioFin = true →
      citaExistente citas body.doctorId body.fecha body.hora = none →
      (∃ dia, diaCita e body.fecha = some dia ∧ dia ∈ d.diasDisponibles) →
      minutosHHMM d.horarioInicio < minutosHHMM d.horarioFin →
      minutosHHMM body.hora = minutosHHMM d.horarioInicio →
      validarCita e pacientes doctores citas body = .ok (p, d))
    ∧ ((∀ dia, diaCita e body.fecha = some dia → dia ∉ d.diasDisponibles) →
      validarCita e pacientes doctores citas body
        = .error ⟨400, "El doctor no trabaja los " ++ enPlantilla (diaCita e body.fecha) ++ "s"⟩)
    ∧ (∀ D : Int, e.analizarFecha body.fecha = some (D * msPorDia) →
      0 ≤ e.desfase → e.desfase < msPorDia →
      diaCita e body.fecha = diasSemana[((D + 4) % 7).toNat]?) := by
  have hsemana : ∀ D : Int, e.analizarFecha body.fecha = some (D * msPorDia) →
      0 ≤ e.desfase → e.desfase < msPorDia →
      diaCita e body.fecha = diasSemana[((D + 4) % 7).toNat]? := by
    intro D hD h0 h1
    unfold diaCita getDay
    rw [hD]
    simp only [Option.some_bind, msPorDia] at h1 ⊢
    have hq : (D * 86400000 + e.desfase) / 86400000 = D := by omega
    rw [hq]
  have hdia : includes d.diasDisponibles (diaCita e body.fecha) = true
      ↔ ∃ dia, diaCita e body.fecha = some dia ∧ dia ∈ d.diasDisponibles := by
    cases hx : diaCita e body.fecha with
    | none => simp [includes]
    | some dia => simp [includes]
  unfold camposPresentes at hcampos
  unfold validarCita
  simp only [hcampos, ↓reduceIte, hp, hd, hfecha, Bool.false_eq_true]
  refine ⟨?_, ?_, ?_, ?_, hsemana⟩
  · intro hh hi hf hlibre
    rw [hlibre, ← hdia, ← ventana_of_esHHMM hh hi hf]
    cases includes d.diasDisponibles (diaCita e body.fecha) <;>
      cases (menorQue (aMinutos body.hora) (aMinutos d.horarioInicio)
        || mayorIgual (aMinutos body.hora) (aMinutos d.horarioFin)) <;> simp
  · intro hh hi hf hfin
    have hv := (ventana_of_esHHMM hh hi hf).not.mpr (by omega)
    simp only [Bool.not_eq_false] at hv
    rw [hv]
    cases includes d.diasDisponibles (diaCita e body.fecha) <;> simp
  · intro hh hi hf hlibre hdiaok hlt hini
    have hv := (ventana_of_esHHMM hh hi hf).mpr (by omega)
    rw [hv, hlibre, hdia.mpr hdiaok]
    simp
  · intro hno
    have hinc : includes d.diasDisponibles (diaCita e body.fecha) = false := by
      rw [Bool.eq_false_iff, ne_eq, hdia]
      rintro ⟨dia, h1, h2⟩
      exact hno dia h1 h2
    rw [hinc]
    simp

/-- On a server on UTC the sample request, for the sample doctor (Mondays,
09:00 to 12:00) on the Monday 2030-01-07 at 11:30, is accepted. -/
theorem validarCita_segun_diaCita_ejemplo :
    validarCita entornoUTC [pacienteEjemplo] [doctorEjemplo] [] cuerpoEjemplo
      = .ok (pacienteEjemplo, doctorEjemplo) :=
  ((validarCita_segun_diaCita entornoUTC [pacienteEjemplo] [doctorEjemplo] [] cuerpoEjemplo
      pacienteEjemplo doctorEjemplo (by decide) (by decide) (by decide) (by decide)).1
    (by decide) (by decide) (by decide) (by decide)).mpr
    ⟨⟨"Lunes", by decide, by decide⟩, by decide, by decide⟩

/-- C3 against the code. On a server six hours west of UTC, at 19:00 of its
Sunday 2030-01-06, the request for the sample doctor, who works on Mondays
from 09:00 to 12:00, dated 2030-01-07 at 11:30 passes the past-date check and
is rejected with `El doctor no trabaja los Domingos`, although 2030-01-07 is a
Monday, `Lunes` is in `diasDisponibles` and 11:30 lies in the window; and the
same request dated 2030-01-08, a Tuesday, is accepted, although `Martes` is
not in `diasDisponibles`. The date text is read as midnight UTC and its
weekday is taken in local time, where it is still the day before. -/
theorem C3_dia_de_la_semana_al_oeste :
    analizarFechaISO "2030-01-07" = some (diasDesdeEpoca 2030 1 7 * msPorDia)
    ∧ diasSemana[((diasDesdeEpoca 2030 1 7 + 4) % 7).toNat]? = some "Lunes"
    ∧ "Lunes" ∈ doctorEjemplo.diasDisponibles
    ∧ minutosHHMM doctorEjemplo.horarioInicio ≤ minutosHHMM cuerpoEjemplo.hora
    ∧ minutosHHMM cuerpoEjemplo.hora < minutosHHMM doctorEjemplo.horarioFin
    ∧ fechaAnterior (entornoOeste.analizarFecha cuerpoEjemplo.fecha) (hoy entornoOeste) = false
    ∧ diaCita entornoOeste cuerpoEjemplo.fecha = some "Domingo"
    ∧ validarCita entornoOeste [pacienteEjemplo] [doctorEjemplo] [] cuerpoEjemplo
        = .error ⟨400, "El doctor no trabaja los Domingos"⟩
    ∧ analizarFechaISO "2030-01-08" = some (diasDesdeEpoca 2030 1 8 * msPorDia)
    ∧ diasSemana[((diasDesdeEpoca 2030 1 8 + 4) % 7).toNat]? = some "Martes"
    ∧ "Martes" ∉ doctorEjemplo.diasDisponibles
    ∧ validarCita entornoOeste [pacienteEjemplo] [doctorEjemplo] []
        ⟨none, "P001", "D001", "2030-01-08", "11:30", "Revisión"⟩
      = .ok (pacienteEjemplo, doctorEjemplo) := by
  decide

/-- A list either has no entry satisfying `p`, or splits at the first such
entry, whose position is what `findIdx` returns. -/
theorem find_descompone {α : Type} (p : α → Bool) (l : List α) :
    (l.find? p = none ∧ l[l.findIdx p]? = none)
    ∨ ∃ pre c post, l = pre ++ c :: post ∧ (∀ x ∈ pre, p x = false) ∧ p c = true
        ∧ l.find? p = some c ∧ l.findIdx p = pre.length := by
  induction l with
  | nil => left; simp
  | cons a l ih =>
    by_cases ha : p a = true
    · right
      exact ⟨[], a, l, rfl, by simp, ha, by simp [List.find?_cons, ha],
        by simp [List.findIdx_cons, ha]⟩
    · have ha2 : p a = false := by simpa using ha
      rcases ih with ⟨h1, h2⟩ | ⟨pre, c, post, h1, h2, h3, h4, h5⟩
      · left
        refine ⟨by simp [List.find?_cons, ha2, h1], ?_⟩
        simp [List.findIdx_cons, ha2, h2]
      · right
        refine ⟨a :: pre, c, post, by simp [h1], ?_, h3, by simp [List.find?_cons, ha2, h4],
          by simp [List.findIdx_cons, ha2, h5]⟩
        intro x hx
        rcases List.mem_cons.mp hx with rfl | hx
        · exact ha2
        · exact h2 x hx

/-- What `PUT /citas/:id/cancelar` does, by cases on the first appointment
that carries the id. -/
theorem putCitasCancelar_casos (citas : List Cita) (id : String) :
    (citas.find? (fun c => c.id == id) = none
      ∧ putCitasCancelar citas id = .error ⟨404, "Cita no encontrada"⟩)
    ∨ ∃ pre c post, citas = pre ++ c :: post ∧ (∀ x ∈ pre, x.id ≠ id) ∧ c.id = id
        ∧ citas.find? (fun c => c.id == id) = some c
        ∧ ((c.estado ≠ "programada" ∧ putCitasCancelar citas id
              = .error ⟨400, "Solo se pueden cancelar citas programadas"⟩)
          ∨ (c.estado = "programada" ∧ putCitasCancelar citas id
              = .ok (pre ++ { c with estado := "cancelada" } :: post))) := by
  rcases find_descompone (fun c : Cita => c.id == id) citas with
    ⟨h1, h2⟩ | ⟨pre, c, post, h1, h2, h3, h4, h5⟩
  · left
    refine ⟨h1, ?_⟩
    unfold putCitasCancelar
    simp only [h2]
  · right
    refine ⟨pre, c, post, h1, ?_, by simpa using h3, h4, ?_⟩
    · intro x hx
      simpa using h2 x hx
    · have hget : citas[citas.findIdx (fun c => c.id == id)]? = some c := by
        rw [h5, h1, List.getElem?_append_right (Nat.le_refl _)]
        simp
      have hset : citas.set (citas.findIdx (fun c => c.id == id)) { c with estado := "cancelada" }
          = pre ++ { c with estado := "cancelada" } :: post := by
        rw [h5, h1]
        simp
      unfold putCitasCancelar
      simp only [hget, hset]
      by_cases hest : c.estado = "programada"
      · right
        exact ⟨hest, by simp [hest]⟩
      · left
        exact ⟨hest, by simp [hest]⟩

/-- C5. Cancellation is legal only from `programada` and a rejection changes
nothing: `PUT /citas/:id/cancelar` succeeds exactly when the first appointment
carrying the id exists and is `programada`; the collection it stores is the
old one with the `estado` of that one appointment set to `cancelada` and
every other appointment and field as before; when that appointment has any
other status the request is rejected with the invalid-state reason and the
store is as it was; and a second cancellation with the same id is rejected,
so the store after two cancellations is the store after one. -/
theorem C5_cancelacion (citas : List Cita) (id : String) :
    ((∃ citas2, putCitasCancelar citas id = .ok citas2) ↔
      ∃ c, citas.find? (fun c => c.id == id) = some c ∧ c.estado = "programada")
    ∧ (∀ citas2, putCitasCancelar citas id = .ok citas2 →
        ∃ pre c post, citas = pre ++ c :: post ∧ (∀ x ∈ pre, x.id ≠ id) ∧ c.id = id
          ∧ c.estado = "programada"
          ∧ citas2 = pre ++ { c with estado := "cancelada" } :: post)
    ∧ (∀ c, citas.find? (fun c => c.id == id) = some c → c.estado ≠ "programada" →
        putCitasCancelar citas id = .error ⟨400, "Solo se pueden cancelar citas programadas"⟩
        ∧ almacenTras citas (putCitasCancelar citas id) = citas)
    ∧ (∀ citas2, putCitasCancelar citas id = .ok citas2 →
        putCitasCancelar citas2 id
          = .error ⟨400, "Solo se pueden cancelar citas programadas"⟩)
    ∧ almacenTras (almacenTras citas (putCitasCancelar citas id))
          (putCitasCancelar (almacenTras citas (putCitasCancelar citas id)) id)
        = almacenTras citas (putCitasCancelar citas id) := by
  have hsegunda : ∀ citas2, putCitasCancelar citas id = .ok citas2 →
      putCitasCancelar citas2 id
        = .error ⟨400, "Solo se pueden cancelar citas programadas"⟩ := by
    intro citas2 h
    rcases putCitasCancelar_casos citas id with ⟨_, h2⟩ | ⟨pre, c, post, h1, h2, h3, _, h5⟩
    · rw [h2] at h; cases h
    · rcases h5 with ⟨_, h6⟩ | ⟨_, h6⟩
      · rw [h6] at h; cases h
      · rw [h6] at h
        injection h with h
        subst h
        have hfind : (pre ++ { c with estado := "cancelada" } :: post).find?
            (fun c => c.id == id) = some { c with estado := "cancelada" } := by
          rw [List.find?_append]
          have hpre : pre.find? (fun c => c.id == id) = none := by
            rw [List.find?_eq_none]
            intro x hx
            simpa using h2 x hx
          simp [hpre, List.find?_cons, h3]
        rcases putCitasCancelar_casos (pre ++ { c with estado := "cancelada" } :: post) id with
          ⟨k1, _⟩ | ⟨pre2, c2, post2, _, _, _, k4, k5⟩
        · rw [hfind] at k1; cases k1
        · rw [hfind] at k4
          injection k4 with k4
          subst k4
          rcases k5 with ⟨_, k6⟩ | ⟨k6, _⟩
          · exact k6
          · exact absurd (show ("cancelada" : String) = "programada" from k6) (by decide)
  refine ⟨?_, ?_, ?_, hsegunda, ?_⟩
  · rcases putCitasCancelar_casos citas id with ⟨h1, h2⟩ | ⟨pre, c, post, _, _, _, h4, h5⟩
    · simp [h1, h2]
    · rcases h5 with ⟨h6, h7⟩ | ⟨h6, h7⟩
      · simp [h4, h6, h7]
      · simp [h4, h6, h7]
  · intro citas2 h
    rcases putCitasCancelar_casos citas id with ⟨_, h2⟩ | ⟨pre, c, post, h1, h2, h3, _, h5⟩
    · rw [h2] at h; cases h
    · rcases h5 with ⟨_, h6⟩ | ⟨h6, h7⟩
      · rw [h6] at h; cases h
      · rw [h7] at h
        injection h with h
        exact ⟨pre, c, post, h1, h2, h3, h6, h.symm⟩
  · intro c hc hest
    rcases putCitasCancelar_casos citas id with ⟨h1, _⟩ | ⟨pre, c2, post, _, _, _, h4, h5⟩
    · rw [h1] at hc; cases hc
    · rw [h4] at hc
      injection hc with hc
      subst hc
      rcases h5 with ⟨_, h6⟩ | ⟨h6, _⟩
      · exact ⟨h6, by rw [h6]; rfl⟩
      · exact absurd h6 hest
  · cases h : putCitasCancelar citas id with
    | error r => simp [almacenTras, h]
    | ok citas2 => simp [almacenTras, hsegunda citas2 h]

/-- C5 at a concrete store: the sample appointment is cancelled by its id
`C001`, and only its `estado` changes. -/
theorem C5_cancelacion_witness :
    ∃ pre c post, [nuevaCita [] cuerpoEjemplo] = pre ++ c :: post ∧ (∀ x ∈ pre, x.id ≠ "C001")
      ∧ c.id = "C001" ∧ c.estado = "programada"
      ∧ [{ nuevaCita [] cuerpoEjemplo with estado := "cancelada" }]
          = pre ++ { c with estado := "cancelada" } :: post :=
  (C5_cancelacion [nuevaCita [] cuerpoEjemplo] "C001").2.1 _ (by decide)

/-- A text that starts with `E` is not the past-date message. -/
theorem ne_mensaje_fecha_of_E (resto : String) :
    "E" ++ resto ≠ "La cita debe ser en una fecha futura" := by
  intro h
  have h2 := congrArg (fun s : String => s.data.head?) h
  simp only [String.data_append] at h2
  simp at h2

/-- The weekday message is not the past-date message. -/
theorem mensaje_dia_ne (x : String) :
    "El doctor no trabaja los " ++ x ++ "s" ≠ "La cita debe ser en una fecha futura" := by
  have h : ("El doctor no trabaja los " : String) = "E" ++ "l doctor no trabaja los " := by decide
  rw [h, String.append_assoc, String.append_assoc]
  exact ne_mensaje_fecha_of_E _

/-- The working-hours message is not the past-date message. -/
theorem mensaje_horario_ne (x y : String) :
    "El doctor solo atiende de " ++ x ++ " a " ++ y ≠ "La cita debe ser en una fecha futura" := by
  have h : ("El doctor solo atiende de " : String) = "E" ++ "l doctor solo atiende de " := by
    decide
  rw [h, String.append_assoc, String.append_assoc, String.append_assoc]
  exact ne_mensaje_fecha_of_E _

/-- C6, as the code has it. For a request whose keys are present and whose
patient and doctor resolve, `validarCita` rejects with the past-date reason
exactly when `fecha` parses to a valid date whose instant is earlier than the
start of the local calendar day of now; on a server at or east of UTC a
date-only `fecha` naming day `D` is so rejected exactly when `D` is strictly
before the local calendar day of now, so a request dated today is not; and a
`fecha` that does not parse is not rejected as past: it is rejected by the
weekday check, with the weekday shown as `undefined`. -/
theorem C6_fecha_pasada (e : Entorno) (pacientes : List Paciente) (doctores : List Doctor)
    (citas : List Cita) (body : CuerpoCita) (p : Paciente) (d : Doctor)
    (hcampos : camposPresentes body)
    (hp : pacientes.find? (fun p => p.id == body.pacienteId) = some p)
    (hd : doctores.find? (fun d => d.id == body.doctorId) = some d) :
    (validarCita e pacientes doctores citas body
        = .error ⟨400, "La cita debe ser en una fecha futura"⟩
      ↔ ∃ t, e.analizarFecha body.fecha = some t ∧ t < hoy e)
    ∧ (∀ D : Int, e.analizarFecha body.fecha = some (D * msPorDia) →
        0 ≤ e.desfase → e.desfase < msPorDia →
        (validarCita e pacientes doctores citas body
            = .error ⟨400, "La cita debe ser en una fecha futura"⟩
          ↔ D < diaLocalDeAhora e))
    ∧ (e.analizarFecha body.fecha = none →
        validarCita e pacientes doctores citas body
          = .error ⟨400, "El doctor no trabaja los undefineds"⟩) := by
  have hprimero : validarCita e pacientes doctores citas body
        = .error ⟨400, "La cita debe ser en una fecha futura"⟩
      ↔ ∃ t, e.analizarFecha body.fecha = some t ∧ t < hoy e := by
    have hant : fechaAnterior (e.analizarFecha body.fecha) (hoy e) = true
        ↔ ∃ t, e.analizarFecha body.fecha = some t ∧ t < hoy e := by
      cases e.analizarFecha body.fecha with
      | none => simp [fechaAnterior]
      | some t => simp [fechaAnterior]
    rw [← hant]
    unfold camposPresentes at hcampos
    unfold validarCita
    simp only [hcampos, ↓reduceIte, hp, hd]
    cases hA : fechaAnterior (e.analizarFecha body.fecha) (hoy e) with
    | true => simp
    | false =>
      simp only [Bool.false_eq_true, ↓reduceIte, iff_false]
      split
      · intro h
        injection h with h
        injection h with _ h
        exact mensaje_dia_ne _ h
      · split
        · intro h
          injection h with h
          injection h with _ h
          exact mensaje_horario_ne _ _ h
        · split
          · intro h
            injection h with h
            injection h with _ h
            exact absurd h (by decide)
          · intro h
            cases h
  refine ⟨hprimero, ?_, ?_⟩
  · intro D hD h0 h1
    rw [hprimero, hD]
    simp only [Option.some.injEq, exists_eq_left', hoy, diaLocalDeAhora, msPorDia] at h1 ⊢
    constructor
    · intro h
      by_contra hcon
      have h2 : (e.ahora + e.desfase) / 86400000 ≤ D := by omega
      have h3 := Int.emod_add_ediv (e.ahora + e.desfase) 86400000
      omega
    · intro h
      have h3 := Int.emod_add_ediv (e.ahora + e.desfase) 86400000
      omega
  · intro hnone
    unfold camposPresentes at hcampos
    unfold validarCita
    simp [hcampos, hp, hd, hnone, fechaAnterior, diaCita, includes, enPlantilla]

/-- C6 on a server at UTC: a request dated today, 2030-01-07, is not rejected
as past, since today is not strictly before today. -/
theorem C6_fecha_pasada_witness :
    ¬ validarCita entornoUTC [pacienteEjemplo] [doctorEjemplo] [] cuerpoEjemplo
        = .error ⟨400, "La cita debe ser en una fecha futura"⟩ :=
  fun h =>
    absurd
      (((C6_fecha_pasada entornoUTC [pacienteEjemplo] [doctorEjemplo] [] cuerpoEjemplo
        pacienteEjemplo doctorEjemplo (by decide) (by decide) (by decide)).2.1 21921
          (by decide) (by decide) (by decide)).mp h)
      (by decide)

/-- C6 fails as stated. A `fecha` that is no date at all is rejected with the
weekday reason, not the past-date reason; and on a server six hours west of
UTC a request dated on the local calendar day of now is rejected as past. -/
theorem C6_counterexample :
    validarCita entornoUTC [pacienteEjemplo] [doctorEjemplo] []
        ⟨none, "P001", "D001", "abc", "11:30", "Revisión"⟩
      = .error ⟨400, "El doctor no trabaja los undefineds"⟩
    ∧ analizarFechaISO "2030-01-06" = some (diaLocalDeAhora entornoOeste * msPorDia)
    ∧ validarCita entornoOeste [pacienteEjemplo] [doctorEjemplo] []
        ⟨none, "P001", "D001", "2030-01-06", "11:30", "Revisión"⟩
      = .error ⟨400, "La cita debe ser en una fecha futura"⟩ := by
  decide

/-- The weekday test of the handlers passes exactly when the date has a
weekday name and that name is one of the listed days. -/
theorem includes_iff (dias : List String) (x : Option String) :
    includes dias x = true ↔ ∃ dia, x = some dia ∧ dia ∈ dias := by
  cases x with
  | none => simp [includes]
  | some dia => simp [includes]

/-- The conflict search finds nothing exactly when no appointment of the
doctor at that date and time is other than `cancelada`. -/
theorem citaExistente_eq_none_iff (citas : List Cita) (doctorId fecha hora : String) :
    citaExistente citas doctorId fecha hora = none
      ↔ ∀ c ∈ citas,
          ¬(c.doctorId = doctorId ∧ c.fecha = fecha ∧ c.hora = hora ∧ c.estado ≠ "cancelada") := by
  unfold citaExistente
  rw [List.find?_eq_none]
  constructor
  · intro h c hc hcon
    have := h c hc
    simp only [Bool.and_eq_true, beq_iff_eq, bne_iff_ne, ne_eq, not_and, Decidable.not_not]
      at this
    exact hcon.2.2.2 (this ⟨⟨hcon.1, hcon.2.1⟩, hcon.2.2.1⟩)
  · intro h c hc
    have := h c hc
    simp only [Bool.and_eq_true, beq_iff_eq, bne_iff_ne, ne_eq, not_and, Decidable.not_not]
    intro h1
    by_contra h3
    exact this ⟨h1.1.1, h1.1.2, h1.2, h3⟩

/-- The handler registered for `GET /doctores/disponibles`, when it is run
with both parameters present: it returns a sublist of the doctor collection,
in its order, made of the doctors for which the weekday test, the
working-hours test and the conflict search of `validarCita` all pass; a doctor
to which its own id resolves is in the result exactly when `validarCita`
accepts a request for that doctor, date and time whose other checks pass (keys
present, patient known, date not past) against the same appointments; and on
`HH:MM` texts a doctor is in the result exactly when it is in the collection,
the weekday computed for the date is one of its days, `start <= time < end`,
and no appointment with its id, the same `fecha` and `hora` has `estado` other
than `cancelada`. -/
theorem getDoctoresDisponibles_segun_validarCita (e : Entorno) (doctores : List Doctor) (citas : List Cita)
    (fecha hora : String) (hfecha : fecha ≠ "") (hhora : hora ≠ "") :
    ∃ disponibles, getDoctoresDisponibles e doctores citas fecha hora = .ok disponibles
      ∧ disponibles.Sublist doctores
      ∧ (∀ d : Doctor, d ∈ disponibles ↔ d ∈ doctores
          ∧ includes d.diasDisponibles (diaCita e fecha) = true
          ∧ (menorQue (aMinutos hora) (aMinutos d.horarioInicio)
              || mayorIgual (aMinutos hora) (aMinutos d.horarioFin)) = false
          ∧ citaExistente citas d.id fecha hora = none)
      ∧ (∀ (pacientes : List Paciente) (body : CuerpoCita) (p : Paciente) (d : Doctor),
          camposPresentes body → body.fecha = fecha → body.hora = hora →
          pacientes.find? (fun p => p.id == body.pacienteId) = some p →
          doctores.find? (fun d => d.id == body.doctorId) = some d →
          fechaAnterior (e.analizarFecha fecha) (hoy e) = false →
          (validarCita e pacientes doctores citas body = .ok (p, d) ↔ d ∈ disponibles))
      ∧ (esHHMM hora = true → ∀ d : Doctor, esHHMM d.horarioInicio = true →
          esHHMM d.horarioFin = true →
          (d ∈ disponibles ↔ d ∈ doctores ∧ libreSegunRegla e citas fecha hora d)) := by
  refine ⟨doctores.filter (estaDisponible e citas fecha hora),
    by simp [getDoctoresDisponibles, hfecha, hhora], List.filter_sublist _, ?_, ?_, ?_⟩
  · intro d
    simp only [List.mem_filter, estaDisponible]
    generalize includes d.diasDisponibles (diaCita e fecha) = b4
    generalize (menorQue (aMinutos hora) (aMinutos d.horarioInicio)
              || mayorIgual (aMinutos hora) (aMinutos d.horarioFin)) = b5
    generalize citaExistente citas d.id fecha hora = c6
    cases b4 <;> cases b5 <;> cases c6 <;> simp
  · intro pacientes body p d hcampos hbf hbh hp hd hant
    have hmem : d ∈ doctores := List.mem_of_find?_eq_some hd
    have hid : d.id = body.doctorId := by
      have := List.find?_some hd
      simpa using this
    unfold camposPresentes at hcampos
    unfold validarCita
    subst hbf hbh
    simp only [hcampos, ↓reduceIte, hp, hd, hant, Bool.false_eq_true, List.mem_filter, hmem,
      true_and, hid, estaDisponible]
    generalize includes d.diasDisponibles (diaCita e body.fecha) = b4
    generalize (menorQue (aMinutos body.hora) (aMinutos d.horarioInicio)
              || mayorIgual (aMinutos body.hora) (aMinutos d.horarioFin)) = b5
    generalize citaExistente citas body.doctorId body.fecha body.hora = c6
    cases b4 <;> cases b5 <;> cases c6 <;> simp
  · intro hh d hi hf
    have hv := ventana_of_esHHMM hh hi hf
    have hinc := includes_iff d.diasDisponibles (diaCita e fecha)
    have hcit := citaExistente_eq_none_iff citas d.id fecha hora
    unfold libreSegunRegla
    rw [← hinc, ← hcit]
    simp only [List.mem_filter, estaDisponible]
    generalize includes d.diasDisponibles (diaCita e fecha) = b4 at hv ⊢
    generalize (menorQue (aMinutos hora) (aMinutos d.horarioInicio)
              || mayorIgual (aMinutos hora) (aMinutos d.horarioFin)) = b5 at hv ⊢
    generalize citaExistente citas d.id fecha hora = c6
    cases b4 <;> cases b5 <;> cases c6 <;> simp_all

/-- The handler registered for `GET /doctores/disponibles` at the sample
doctor: on the Monday 2030-01-07 at 11:30 it returns the sample doctor when
the sample appointment is cancelled. -/
theorem getDoctoresDisponibles_segun_validarCita_ejemplo :
    ∃ disponibles,
      getDoctoresDisponibles entornoUTC [doctorEjemplo]
          [{ nuevaCita [] cuerpoEjemplo with estado := "cancelada" }] "2030-01-07" "11:30"
        = .ok disponibles
      ∧ disponibles.Sublist [doctorEjemplo]
      ∧ (doctorEjemplo ∈ disponibles ↔ doctorEjemplo ∈ [doctorEjemplo]
          ∧ libreSegunRegla entornoUTC [{ nuevaCita [] cuerpoEjemplo with estado := "cancelada" }]
              "2030-01-07" "11:30" doctorEjemplo) :=
  match getDoctoresDisponibles_segun_validarCita entornoUTC [doctorEjemplo]
      [{ nuevaCita [] cuerpoEjemplo with estado := "cancelada" }] "2030-01-07" "11:30"
      (by decide) (by decide) with
  | ⟨disponibles, h1, h2, _, _, h4⟩ =>
    ⟨disponibles, h1, h2, h4 (by decide) doctorEjemplo (by decide) (by decide)⟩

/-- C7 against the code. A `GET` request for the path `/doctores/disponibles`
matches the route `/doctores/:id`, registered earlier, with `disponibles` as
the id, and is answered by that handler: with the doctor whose id is
`disponibles`, or with status 404 and `Doctor no encontrado`. So for the
sample doctor, who works on Mondays from 09:00 to 12:00, no appointments, the
Monday 2030-01-07 and 11:30, on a server on UTC, the answer is 404
`Doctor no encontrado`, whereas all checks of `validarCita` pass for that
doctor, date and time, and the handler registered for the path, which is not
run, would return the doctor. -/
theorem C7_ruta_disponibles_encubierta :
    (∀ (e : Entorno) (doctores : List Doctor) (citas : List Cita) (fecha hora : String),
        responderGet e doctores citas ["doctores", "disponibles"] fecha hora
          = .doctor (getDoctoresId doctores "disponibles"))
    ∧ encaminarGet ["doctores", "disponibles"] = some (.doctoresId, [("id", "disponibles")])
    ∧ responderGet entornoUTC [doctorEjemplo] [] ["doctores", "disponibles"] "2030-01-07" "11:30"
        = .doctor (.error ⟨404, "Doctor no encontrado"⟩)
    ∧ validarCita entornoUTC [pacienteEjemplo] [doctorEjemplo] [] cuerpoEjemplo
        = .ok (pacienteEjemplo, doctorEjemplo)
    ∧ getDoctoresDisponibles entornoUTC [doctorEjemplo] [] "2030-01-07" "11:30"
        = .ok [doctorEjemplo] :=
  ⟨fun _ _ _ _ _ => rfl, by decide, by decide, by decide, by decide⟩

/-! ### Decimal rendering and reading -/

/-- The character of a decimal digit is a digit and has that digit as value. -/
theorem digitChar_decimal (d : Nat) (h : d < 10) :
    esDigito (Nat.digitChar d) = true ∧ valorDigito (Nat.digitChar d) = d := by
  interval_cases d <;> exact ⟨by decide, by decide⟩

/-- Reading digits from a carried value shifts that value to the left. -/
theorem foldl_valorDecimal (l : List Char) (a : Nat) :
    l.foldl (fun acc c => acc * 10 + valorDigito c) a = a * 10 ^ l.length + valorDecimal l := by
  induction l generalizing a with
  | nil => simp [valorDecimal]
  | cons c cs ih =>
    simp only [List.foldl_cons, valorDecimal, List.length_cons]
    rw [ih, ih (0 * 10 + valorDigito c)]
    ring

/-- The digits produced with enough fuel are digits, are at least one, and
read back as the number in front of what was carried. -/
theorem toDigitsCore_decimal (fuel n : Nat) (acc : List Char) (hfuel : n < fuel)
    (hacc : acc.all esDigito = true) :
    (Nat.toDigitsCore 10 fuel n acc).all esDigito = true
    ∧ Nat.toDigitsCore 10 fuel n acc ≠ []
    ∧ valorDecimal (Nat.toDigitsCore 10 fuel n acc) = n * 10 ^ acc.length + valorDecimal acc := by
  induction fuel generalizing n acc with
  | zero => omega
  | succ fuel ih =>
    have hd := digitChar_decimal (n % 10) (Nat.mod_lt _ (by decide))
    have hval : valorDecimal (Nat.digitChar (n % 10) :: acc)
        = (n % 10) * 10 ^ acc.length + valorDecimal acc := by
      simp only [valorDecimal, List.foldl_cons]
      rw [foldl_valorDecimal, hd.2]
      simp [valorDecimal]
    unfold Nat.toDigitsCore
    by_cases h0 : n / 10 = 0
    · simp only [h0, ↓reduceIte]
      refine ⟨by simp [hd.1, hacc], by simp, ?_⟩
      rw [hval]
      have : n % 10 = n := by omega
      rw [this]
    · simp only [h0, ↓reduceIte]
      have hlt : n / 10 < fuel := by omega
      have hacc2 : (Nat.digitChar (n % 10) :: acc).all esDigito = true := by
        simp [hd.1, hacc]
      obtain ⟨h1, h2, h3⟩ := ih (n / 10) (Nat.digitChar (n % 10) :: acc) hlt hacc2
      refine ⟨h1, h2, ?_⟩
      rw [h3, hval, List.length_cons, pow_succ]
      have hn : n * 10 ^ acc.length = (10 * (n / 10) + n % 10) * 10 ^ acc.length := by
        rw [Nat.div_add_mod n 10]
      rw [hn]
      ring

/-- The decimal digits of a number are digits, are at least one, and read back
as the number. -/
theorem toDigits_decimal (n : Nat) :
    (Nat.toDigits 10 n).all esDigito = true ∧ Nat.toDigits 10 n ≠ []
    ∧ valorDecimal (Nat.toDigits 10 n) = n := by
  have h := toDigitsCore_decimal (n + 1) n [] (by omega) (by simp)
  simpa [Nat.toDigits, valorDecimal] using h

/-- Padding with zeros keeps a run of digits a run of digits with the same
value. -/
theorem padStart_decimal (largo : Nat) (l : List Char) (hl : l.all esDigito = true) :
    (padStart largo '0' l).all esDigito = true
    ∧ valorDecimal (padStart largo '0' l) = valorDecimal l := by
  unfold padStart
  generalize largo - l.length = k
  induction k with
  | zero => simpa using hl
  | succ k ih =>
    obtain ⟨h1, h2⟩ := ih
    refine ⟨?_, ?_⟩
    · simp only [List.replicate_succ, List.cons_append, List.all_cons, h1, Bool.and_true]
      decide
    · simp only [List.replicate_succ, List.cons_append, valorDecimal, List.foldl_cons]
      have : 0 * 10 + valorDigito '0' = 0 := by decide
      rw [this]
      exact h2

/-- In base ten a run of digits has its decimal value. -/
theorem valorEnBase_decimal (l : List Char) (hl : l.all esDigito = true) :
    valorEnBase 10 l = valorDecimal l := by
  have hgen : ∀ a : Nat, l.foldl (fun acc c => acc * 10 + (valorCifra c).getD 0) a
      = l.foldl (fun acc c => acc * 10 + valorDigito c) a := by
    induction l with
    | nil => intro a; rfl
    | cons c cs ih =>
      intro a
      simp only [List.all_cons, Bool.and_eq_true] at hl
      simp only [List.foldl_cons, (esDigito_hechos hl.1).2.2.2.2.2.2, Option.getD_some]
      exact ih hl.2 _
  exact hgen 0

/-- A run of digits is taken whole by the digit scan of base ten. -/
theorem takeWhile_esCifra (l : List Char) (hl : l.all esDigito = true) :
    l.takeWhile (esCifra 10) = l := by
  induction l with
  | nil => rfl
  | cons c cs ih =>
    simp only [List.all_cons, Bool.and_eq_true] at hl
    simp [List.takeWhile_cons, (esDigito_hechos hl.1).2.2.2.2.2.1, ih hl.2]

/-- A non-empty run of decimal digits is read by `parseInt` as the integer of
its decimal value. -/
theorem enteroLeido_decimal (l : List Char) (hl : l.all esDigito = true) (hne : l ≠ []) :
    enteroLeido l = some (valorDecimal l : Nat) := by
  cases l with
  | nil => exact absurd rfl hne
  | cons c cs =>
    have hall := hl
    simp only [List.all_cons, Bool.and_eq_true] at hl
    obtain ⟨hb, hm, hp, _, _, _, _⟩ := esDigito_hechos hl.1
    have hs1 : (c :: cs).dropWhile esBlanco = c :: cs := by
      simp [List.dropWhile_cons, hb]
    have hhex : (match c :: cs with
        | '0' :: 'x' :: _ => true
        | '0' :: 'X' :: _ => true
        | _ => false) = false := by
      cases cs with
      | nil => split <;> simp_all
      | cons c2 cs2 =>
        simp only [List.all_cons, Bool.and_eq_true] at hl
        obtain ⟨_, _, _, hx, hX, _, _⟩ := esDigito_hechos hl.2.1
        split
        · rename_i heq
          injection heq with _ heq
          injection heq with heq _
          exact absurd heq hx
        · rename_i heq
          injection heq with _ heq
          injection heq with heq _
          exact absurd heq hX
        · rfl
    have hneg : (match c :: cs with
        | '-' :: _ => true
        | _ => false) = false := by
      split
      · rename_i heq
        injection heq with heq _
        exact absurd heq hm
      · rfl
    have hs2 : (match c :: cs with
        | '-' :: r => r
        | '+' :: r => r
        | r => r) = c :: cs := by
      split
      · rename_i heq
        injection heq with heq _
        exact absurd heq hm
      · rename_i heq
        injection heq with heq _
        exact absurd heq hp
      · rfl
    unfold enteroLeido
    simp only [hs1, hneg, hs2, hhex, Bool.false_eq_true, ↓reduceIte, takeWhile_esCifra _ hall,
      valorEnBase_decimal _ hall]
    simp

/-- Taking the prefix out of a text that starts with it leaves the rest. -/
theorem replace_append (patron resto : List Char) : replace patron (patron ++ resto) = resto := by
  cases h : patron ++ resto with
  | nil =>
    have := List.append_eq_nil.mp h
    simp [this.2, replace]
  | cons c cs =>
    unfold replace
    have hpre : patron.isPrefixOf (c :: cs) = true := by
      rw [← h]
      simp
    simp only [hpre, ↓reduceIte]
    rw [← h]
    simp

/-- The characters of a number padded to three digits. -/
theorem tresCifras_data (n : Nat) : (tresCifras n).data = padStart 3 '0' (Nat.toDigits 10 n) := by
  rfl

/-- The numeric remainder of a prefix followed by a padded number is that
number. -/
theorem restoNumerico_tresCifras (prefijo : String) (n : Nat) :
    restoNumerico prefijo (prefijo ++ tresCifras n) = n := by
  obtain ⟨h1, h2, h3⟩ := toDigits_decimal n
  obtain ⟨h4, h5⟩ := padStart_decimal 3 _ h1
  have hne : padStart 3 '0' (Nat.toDigits 10 n) ≠ [] := by
    unfold padStart
    intro h
    exact h2 (List.append_eq_nil.mp h).2
  unfold restoNumerico
  rw [String.data_append, replace_append, tresCifras_data, enteroLeido_decimal _ h4 hne, h5, h3]
  rfl

/-- A natural number up to `2 ^ 53` is a double. -/
theorem redondearEntero_exacto {n : Nat} (h : n ≤ 2 ^ 53) : redondearEntero n = n := by
  rcases Nat.lt_or_eq_of_le h with hlt | heq
  · unfold redondearEntero
    have hb : bits n - 53 = 0 := by
      have := bits_le hlt
      omega
    simp [hb, Nat.mod_one]
  · subst heq
    decide

/-- An integer of magnitude up to `2 ^ 53` is read exactly. -/
theorem deEntero_exacto {i : Int} (h : i.natAbs ≤ 2 ^ 53) : deEntero i = .entero i := by
  unfold deEntero
  rw [redondearEntero_exacto h]
  have hb : ¬ 1024 < bits i.natAbs := by
    have h54 : i.natAbs < 2 ^ 54 := by
      have : (2 : Nat) ^ 53 < 2 ^ 54 := by norm_num
      omega
    have := bits_le h54
    omega
  simp only [hb, ↓reduceIte]
  congr 1
  split <;> omega

/-- A natural number up to `2 ^ 53` prints as its decimal digits. -/
theorem digitosDe_exacto {n : Nat} (h : n ≤ 2 ^ 53) : digitosDe n = Nat.toDigits 10 n := by
  rcases Nat.lt_or_eq_of_le h with hlt | heq
  · unfold digitosDe
    rw [if_pos hlt]
  · subst heq
    decide

/-- What a negative integer is read as is never greater than a number that
is not negative. -/
theorem mayorQue_deEntero_negativo {i a : Int} (hi : i < 0) (ha : 0 ≤ a) :
    mayorQue (oCero (deEntero i)) (.entero a) = false := by
  unfold deEntero
  split
  · simp [oCero, mayorQue, hi]
  · simp only [hi, ↓reduceIte, oCero, mayorQue, decide_eq_false_iff_not]
    omega

/-- On numbers below `2 ^ 53` the reducer of `generarId` keeps the larger of
its two arguments. -/
theorem reductorId_exacto (prefijo : String) (a : Int) (id : String) (ha : 0 ≤ a)
    (hid : restoNumerico prefijo id < 2 ^ 53) :
    reductorId prefijo (.entero a) id = .entero (max a (restoNumerico prefijo id)) := by
  unfold reductorId restoNumerico parseInt at *
  cases hle : enteroLeido (replace prefijo.data id.data) with
  | none =>
    have hno : ¬ a < 0 := by omega
    simp [oCero, mayorQue, hno, max_eq_left ha]
  | some i =>
    rw [hle] at hid
    simp only [Option.getD_some] at hid ⊢
    by_cases hneg : i < 0
    · simp only [mayorQue_deEntero_negativo hneg ha, Bool.false_eq_true, ↓reduceIte]
      rw [max_eq_left (by omega)]
    · have hnat : i.natAbs ≤ 2 ^ 53 := by
        have : (2 : Int) ^ 53 = 9007199254740992 := by norm_num
        have : (2 : Nat) ^ 53 = 9007199254740992 := by norm_num
        omega
      rw [deEntero_exacto hnat]
      by_cases hia : a < i
      · have hi0 : i ≠ 0 := by omega
        simp [oCero, mayorQue, hia, max_eq_right (le_of_lt hia)]
      · simp [oCero, mayorQue, hia, max_eq_left (not_lt.mp hia)]

/-- Moving a value into the seed of a right fold of `max`. -/
theorem foldr_max_seed (l : List Int) (a x : Int) :
    l.foldr max (max a x) = max x (l.foldr max a) := by
  induction l with
  | nil => simp [max_comm]
  | cons y ys ih => simp only [List.foldr_cons, ih, max_left_comm]

/-- On numbers below `2 ^ 53` the left fold of `generarId` is the right fold
of `max` over the numeric remainders. -/
theorem foldl_reductorId (prefijo : String) (ids : List String) (a : Int) (ha : 0 ≤ a)
    (hids : ∀ id ∈ ids, restoNumerico prefijo id < 2 ^ 53) :
    ids.foldl (reductorId prefijo) (.entero a)
      = .entero ((ids.map (restoNumerico prefijo)).foldr max a) := by
  induction ids generalizing a with
  | nil => rfl
  | cons id ids ih =>
    simp only [List.foldl_cons, List.map_cons, List.foldr_cons]
    rw [reductorId_exacto prefijo a id ha (hids id (List.mem_cons_self _ _)),
      ih _ (le_max_of_le_left ha) (fun x hx => hids x (List.mem_cons_of_mem _ hx)),
      foldr_max_seed]

/-- On numbers below `2 ^ 53` the value of `maxId` is the largest of `0` and
the numeric remainders. -/
theorem maxId_eq_mayorResto (prefijo : String) (ids : List String)
    (hids : ∀ id ∈ ids, restoNumerico prefijo id < 2 ^ 53) :
    maxId prefijo ids = .entero (mayorResto prefijo ids) :=
  foldl_reductorId prefijo ids 0 (le_refl 0) hids

/-- The largest remainder is not negative and bounds every remainder. -/
theorem mayorResto_cota (prefijo : String) (ids : List String) :
    0 ≤ mayorResto prefijo ids
    ∧ ∀ id ∈ ids, restoNumerico prefijo id ≤ mayorResto prefijo ids := by
  unfold mayorResto
  induction ids with
  | nil => simp
  | cons x xs ih =>
    obtain ⟨h0, h1⟩ := ih
    refine ⟨by simp only [List.map_cons, List.foldr_cons]; exact le_max_of_le_right h0, ?_⟩
    intro id hid
    simp only [List.map_cons, List.foldr_cons]
    rcases List.mem_cons.mp hid with rfl | hid
    · exact le_max_left _ _
    · exact le_max_of_le_right (h1 id hid)

/-- A positive bound of every remainder bounds the largest remainder. -/
theorem mayorResto_lt (prefijo : String) (ids : List String) (b : Int) (hb : 0 < b)
    (hids : ∀ id ∈ ids, restoNumerico prefijo id < b) : mayorResto prefijo ids < b := by
  unfold mayorResto
  induction ids with
  | nil => simpa using hb
  | cons x xs ih =>
    simp only [List.map_cons, List.foldr_cons]
    exact max_lt (hids x (List.mem_cons_self _ _))
      (ih (fun y hy => hids y (List.mem_cons_of_mem _ hy)))

/-- When every numeric remainder is below `2 ^ 53`, the method `generarId`
returns the id that the specification describes. -/
theorem generarId_eq_idSiguiente (prefijo : String) (ids : List String)
    (hids : ∀ id ∈ ids, restoNumerico prefijo id < 2 ^ 53) :
    generarId prefijo ids = idSiguiente prefijo ids := by
  unfold generarId idSiguiente
  by_cases h : ids.length = 0
  · have hnil : ids = [] := List.length_eq_zero.mp h
    subst hnil
    simp only [List.length_nil, ↓reduceIte, mayorResto, List.map_nil, List.foldr_nil]
    rfl
  · have hpowZ : (2 : Int) ^ 53 = 9007199254740992 := by norm_num
    have hpowN : (2 : Nat) ^ 53 = 9007199254740992 := by norm_num
    have h0 := (mayorResto_cota prefijo ids).1
    have hlt := mayorResto_lt prefijo ids (2 ^ 53) (by omega) hids
    have hnat : (mayorResto prefijo ids + 1).natAbs ≤ 2 ^ 53 := by omega
    simp only [h, ↓reduceIte, maxId_eq_mayorResto prefijo ids hids, masUno,
      deEntero_exacto hnat, numToString]
    have hpos : ¬ (mayorResto prefijo ids + 1 < 0) := by omega
    have hnat2 : (mayorResto prefijo ids + 1).natAbs = (1 + mayorResto prefijo ids).toNat := by
      omega
    simp only [hpos, ↓reduceIte, digitosDe_exacto hnat]
    rw [hnat2]
    rfl

/-- When every numeric remainder is below `2 ^ 53`, the id that `generarId`
returns is borne by no entry of the collection. -/
theorem generarId_fresco (prefijo : String) (ids : List String)
    (hids : ∀ id ∈ ids, restoNumerico prefijo id < 2 ^ 53) :
    generarId prefijo ids ∉ ids := by
  intro hmem
  rw [generarId_eq_idSiguiente prefijo ids hids] at hmem
  obtain ⟨h0, h1⟩ := mayorResto_cota prefijo ids
  have h2 := h1 _ hmem
  unfold idSiguiente at h2
  rw [restoNumerico_tresCifras] at h2
  omega

/-- The numeric remainders of the first `n` expected ids are `1` to `n`. -/
theorem restoNumerico_idsEsperados (n : Nat) :
    ∀ id ∈ idsEsperados n, restoNumerico "P" id ≤ n := by
  intro id hid
  unfold idsEsperados at hid
  obtain ⟨k, hk, rfl⟩ := List.mem_map.mp hid
  rw [restoNumerico_tresCifras]
  have := List.mem_range.mp hk
  omega

/-- The largest remainder of the first `n` expected ids is `n`. -/
theorem mayorResto_idsEsperados (n : Nat) : mayorResto "P" (idsEsperados n) = n := by
  induction n with
  | zero => rfl
  | succ n ih =>
    unfold mayorResto at ih ⊢
    unfold idsEsperados at ih ⊢
    rw [List.range_succ, List.map_append, List.map_append, List.foldr_append]
    simp only [List.map_cons, List.map_nil, List.foldr_cons, List.foldr_nil]
    rw [max_comm, foldr_max_seed, ih, restoNumerico_tresCifras]
    push_cast
    omega

/-- After the first `n` expected ids, with `n` below `2 ^ 53`, `generarId`
returns the next one. -/
theorem generarId_idsEsperados (n : Nat) (hn : n < 2 ^ 53) :
    generarId "P" (idsEsperados n) = "P" ++ tresCifras (n + 1) := by
  have hpowZ : (2 : Int) ^ 53 = 9007199254740992 := by norm_num
  have hpowN : (2 : Nat) ^ 53 = 9007199254740992 := by norm_num
  rw [generarId_eq_idSiguiente]
  · unfold idSiguiente
    rw [mayorResto_idsEsperados]
    have : (1 + (n : Int)).toNat = n + 1 := by omega
    rw [this]
  · intro id hid
    have := restoNumerico_idsEsperados n id hid
    omega

/-- A run of registrations whose bodies carry no id, started on a collection
that holds the first `m` expected ids, ends on one that holds the first
`m + N` of them, as long as `m + N` is at most `2 ^ 53`. -/
theorem registrar_ids (entradas : List (String × CuerpoPaciente)) :
    ∀ (pacientes final : List Paciente) (m : Nat),
      m + entradas.length ≤ 2 ^ 53 →
      pacientes.map (fun p => p.id) = idsEsperados m →
      (∀ x ∈ entradas, x.2.id = none) →
      registrar pacientes entradas = some final →
      final.map (fun p => p.id) = idsEsperados (m + entradas.length) := by
  induction entradas with
  | nil =>
    intro pacientes final m _ hm _ hreg
    simp only [registrar, Option.some.injEq] at hreg
    subst hreg
    simpa using hm
  | cons x resto ih =>
    intro pacientes final m hcota hm hids hreg
    obtain ⟨hoyTexto, body⟩ := x
    have hbody : body.id = none := hids (hoyTexto, body) (List.mem_cons_self _ _)
    have hm1 : m < 2 ^ 53 := by
      simp only [List.length_cons] at hcota
      omega
    unfold registrar at hreg
    cases hpost : postPacientes hoyTexto pacientes body with
    | error r => simp [hpost] at hreg
    | ok pacientes2 =>
      simp only [hpost] at hreg
      unfold postPacientes at hpost
      split at hpost
      · cases hpost
      · injection hpost with hpost
        have hm2 : pacientes2.map (fun p => p.id) = idsEsperados (m + 1) := by
          rw [← hpost, List.map_append, hm]
          simp only [List.map_cons, List.map_nil, nuevoPaciente, hbody, Option.getD_none, hm,
            generarId_idsEsperados m hm1]
          unfold idsEsperados
          rw [List.range_succ, List.map_append]
          rfl
        have := ih pacientes2 final (m + 1)
          (by simp only [List.length_cons] at hcota; omega) hm2
          (fun y hy => hids y (List.mem_cons_of_mem _ hy)) hreg
        rw [this, List.length_cons]
        congr 1
        omega

/-- C8, as the code has it. Starting from an empty patient collection, in a
run of `N` successful registrations, `N` at most `2 ^ 53`, whose request
bodies carry no `id` key of their own, each one reading the collection the
previous one stored, the id of the `k`-th new patient is `P` followed by `k`
zero-padded to three digits, so that the numeric parts are `1, 2, ...` in
order and no id repeats; and for every prefix and every collection whose
numeric remainders are all below `2 ^ 53`, `generarId` returns the prefix
followed by one more than the largest of `0` and the numeric remainders of
the existing ids (an unparsable remainder counting as `0`), zero-padded to
three digits, which is the id of no entry of the collection. -/
theorem C8_generarId :
    (∀ (entradas : List (String × CuerpoPaciente)) (final : List Paciente),
        entradas.length ≤ 2 ^ 53 →
        (∀ x ∈ entradas, x.2.id = none) →
        registrar [] entradas = some final →
        final.map (fun p => p.id) = idsEsperados entradas.length)
    ∧ (∀ n : Nat, (idsEsperados n).map (restoNumerico "P")
          = (List.range n).map (fun k => ((k + 1 : Nat) : Int))
        ∧ (idsEsperados n).Nodup)
    ∧ (∀ (prefijo : String) (ids : List String),
        (∀ id ∈ ids, restoNumerico prefijo id < 2 ^ 53) →
        generarId prefijo ids = idSiguiente prefijo ids ∧ generarId prefijo ids ∉ ids) := by
  refine ⟨?_, ?_, fun prefijo ids hids =>
    ⟨generarId_eq_idSiguiente prefijo ids hids, generarId_fresco prefijo ids hids⟩⟩
  · intro entradas final hcota hids hreg
    have := registrar_ids entradas [] final 0 (by omega) rfl hids hreg
    simpa using this
  · intro n
    have hnum : (idsEsperados n).map (restoNumerico "P")
        = (List.range n).map (fun k => ((k + 1 : Nat) : Int)) := by
      unfold idsEsperados
      rw [List.map_map]
      apply List.map_congr_left
      intro k _
      exact restoNumerico_tresCifras "P" (k + 1)
    refine ⟨hnum, ?_⟩
    have hnd : ((idsEsperados n).map (restoNumerico "P")).Nodup := by
      rw [hnum]
      apply List.Nodup.map _ (List.nodup_range n)
      intro a b hab
      simp only [Nat.cast_add, Nat.cast_one, add_left_inj, Nat.cast_inj] at hab
      exact hab
    exact List.Nodup.of_map _ hnd

/-- C8 at two sample registrations into the empty collection: the ids are
`P001` and `P002`; and at the collection with ids `P007`, `Pabc` and
`P9007199254740991`, whose largest numeric remainder is `2 ^ 53 - 1`: the
next id is `P9007199254740992`, which is not in the collection. -/
theorem C8_generarId_witness :
    [pacienteEjemplo.id, "P002"] = idsEsperados 2
    ∧ generarId "P" ["P007", "Pabc", "P9007199254740991"]
        = idSiguiente "P" ["P007", "Pabc", "P9007199254740991"]
    ∧ generarId "P" ["P007", "Pabc", "P9007199254740991"]
        ∉ ["P007", "Pabc", "P9007199254740991"] :=
  ⟨C8_generarId.1
      [("2029-12-01", cuerpoPacienteEjemplo), ("2029-12-02", cuerpoPacienteDos)]
      [pacienteEjemplo, ⟨"P002", "Beto", "41", "5555678", "beto@correo.mx", "2029-12-02"⟩]
      (by decide) (by decide) (by decide),
    C8_generarId.2.2 "P" ["P007", "Pabc", "P9007199254740991"] (by decide)⟩

/-- C8 fails as stated. A first registration whose body carries the key
`id` with value `P005` passes the middleware and is stored under `P005`, not
`P001`, and the next new patient gets `P006`, not `P002`; for the collection
whose only id is `P-5` the numeric remainder is `-5`, yet `generarId` returns
`P001`; for the collection whose only id is `P9007199254740992` the sum of
the double `2 ^ 53` and one is that double again and `generarId` returns the
id that is already there; and from `10 ^ 21` on the number is printed in
exponent form. -/
theorem C8_counterexample :
    (registrar [] [("2029-12-01", cuerpoPacienteConId), ("2029-12-02", cuerpoPacienteDos)]).map
        (fun final => final.map (fun p => p.id)) = some ["P005", "P006"]
    ∧ idsEsperados 2 = ["P001", "P002"]
    ∧ enteroLeido (replace "P".data "P-5".data) = some (-5)
    ∧ generarId "P" ["P-5"] = "P001"
    ∧ generarId "P" ["P9007199254740992"] = "P9007199254740992"
    ∧ generarId "P" ["P1000000000000000000000"] = "P1e+21" := by
  decide

/-- What an accepted request has passed: its keys are present, its ids
resolve to the returned records, its date is not past, the doctor works that
weekday and the time is inside the working hours. -/
theorem validarCita_ok_hechos {e : Entorno} {pacientes : List Paciente} {doctores : List Doctor}
    {citas : List Cita} {body : CuerpoCita} {r : Paciente × Doctor}
    (h : validarCita e pacientes doctores citas body = .ok r) :
    camposPresentes body
    ∧ pacientes.find? (fun p => p.id == body.pacienteId) = some r.1
    ∧ doctores.find? (fun d => d.id == body.doctorId) = some r.2
    ∧ fechaAnterior (e.analizarFecha body.fecha) (hoy e) = false
    ∧ includes r.2.diasDisponibles (diaCita e body.fecha) = true
    ∧ (menorQue (aMinutos body.hora) (aMinutos r.2.horarioInicio)
        || mayorIgual (aMinutos body.hora) (aMinutos r.2.horarioFin)) = false := by
  unfold validarCita at h
  unfold camposPresentes
  split at h
  · cases h
  · rename_i hc
    split at h
    · cases h
    · rename_i p hp
      split at h
      · cases h
      · rename_i d hd
        split at h
        · cases h
        · rename_i h3
          split at h
          · cases h
          · rename_i h4
            split at h
            · cases h
            · rename_i h5
              split at h
              · cases h
              · injection h with h
                subst h
                refine ⟨hc, hp, hd, by simpa using h3, by simpa using h4, by simpa using h5⟩

/-- A request that has passed every check before the slot check is decided by
the conflict search alone. -/
theorem validarCita_por_citaExistente {e : Entorno} {pacientes : List Paciente}
    {doctores : List Doctor} {citas : List Cita} {body : CuerpoCita} {p : Paciente} {d : Doctor}
    (hcampos : camposPresentes body)
    (hp : pacientes.find? (fun p => p.id == body.pacienteId) = some p)
    (hd : doctores.find? (fun d => d.id == body.doctorId) = some d)
    (h3 : fechaAnterior (e.analizarFecha body.fecha) (hoy e) = false)
    (h4 : includes d.diasDisponibles (diaCita e body.fecha) = true)
    (h5 : (menorQue (aMinutos body.hora) (aMinutos d.horarioInicio)
        || mayorIgual (aMinutos body.hora) (aMinutos d.horarioFin)) = false) :
    validarCita e pacientes doctores citas body
      = match citaExistente citas body.doctorId body.fecha body.hora with
        | some _ => .error ⟨400, "El doctor ya tiene una cita programada en este horario"⟩
        | none => .ok (p, d) := by
  unfold camposPresentes at hcampos
  unfold validarCita
  simp only [hcampos, ↓reduceIte, hp, hd, h3, h4, h5, Bool.false_eq_true, Bool.not_true]

/-- A stored `programada` appointment is found by the conflict search of its
own slot. -/
theorem citaExistente_isSome_of_mem {citas : List Cita} {c : Cita} (hmem : c ∈ citas)
    (hest : c.estado = "programada") :
    ∃ x, citaExistente citas c.doctorId c.fecha c.hora = some x := by
  cases h : citaExistente citas c.doctorId c.fecha c.hora with
  | some x => exact ⟨x, rfl⟩
  | none =>
    have := (citaExistente_eq_none_iff citas _ _ _).mp h c hmem
    exact absurd ⟨rfl, rfl, rfl, by rw [hest]; decide⟩ this

/-- C4, as the code has it. Let a request whose body carries no `id` key of
its own be booked through `POST /citas` at `(doctorId, fecha, hora)`, in any
state of the store in which the numeric part of every appointment id (what
`parseInt` reads after the prefix `C` is removed) is below `2 ^ 53`.
While the stored appointment is in the collection, any
request for the same `(doctorId, fecha, hora)` is rejected, and with the
slot-already-booked reason when its keys are present, its patient resolves and
doctors and clock are those of the booking. The cancellation through
`PUT /citas/:id/cancelar` with the id the appointment was given succeeds, and
after it the identical request is accepted and stored with status
`programada`. -/
theorem C4_reservar_cancelar_reservar (e : Entorno) (pacientes : List Paciente)
    (doctores : List Doctor) (citas citas1 : List Cita) (body : CuerpoCita)
    (hid : body.id = none)
    (hcota : ∀ c ∈ citas, restoNumerico "C" c.id < 2 ^ 53)
    (hbook : postCitas e pacientes doctores citas body = .ok citas1) :
    nuevaCita citas body ∈ citas1
    ∧ (∀ (e2 : Entorno) (pacientes2 : List Paciente) (doctores2 : List Doctor)
        (citasDespues : List Cita) (body2 : CuerpoCita),
        nuevaCita citas body ∈ citasDespues →
        body2.doctorId = body.doctorId → body2.fecha = body.fecha → body2.hora = body.hora →
        (∃ r, validarCita e2 pacientes2 doctores2 citasDespues body2 = .error r)
        ∧ (camposPresentes body2 →
            (∃ p, pacientes2.find? (fun p => p.id == body2.pacienteId) = some p) →
            validarCita e pacientes2 doctores citasDespues body2
              = .error ⟨400, "El doctor ya tiene una cita programada en este horario"⟩))
    ∧ ∃ citas2, putCitasCancelar citas1 (nuevaCita citas body).id = .ok citas2
        ∧ citas2 = citas ++ [{ nuevaCita citas body with estado := "cancelada" }]
        ∧ postCitas e pacientes doctores citas2 body = .ok (citas2 ++ [nuevaCita citas2 body])
        ∧ (nuevaCita citas2 body).estado = "programada" := by
  unfold postCitas at hbook
  split at hbook
  · cases hbook
  · rename_i r hv
    injection hbook with hbook
    subst hbook
    obtain ⟨hc, hp, hd, h3, h4, h5⟩ := validarCita_ok_hechos hv
    have hlibre := validarCita_ok_citaExistente hv
    refine ⟨by simp, ?_, ?_⟩
    · intro e2 pacientes2 doctores2 citasDespues body2 hmem hb1 hb2 hb3
      obtain ⟨x, hx⟩ :=
        @citaExistente_isSome_of_mem citasDespues (nuevaCita citas body) hmem rfl
      have hx2 : citaExistente citasDespues body2.doctorId body2.fecha body2.hora = some x := by
        rw [hb1, hb2, hb3]
        exact hx
      refine ⟨?_, ?_⟩
      · cases hres : validarCita e2 pacientes2 doctores2 citasDespues body2 with
        | error r2 => exact ⟨r2, rfl⟩
        | ok r2 =>
          have := validarCita_ok_citaExistente hres
          rw [hx2] at this
          cases this
      · rintro hc2 ⟨p2, hp2⟩
        have hd2 : doctores.find? (fun d => d.id == body2.doctorId) = some r.2 := by
          rw [hb1]; exact hd
        rw [validarCita_por_citaExistente hc2 hp2 hd2 (by rw [hb2]; exact h3)
          (by rw [hb2]; exact h4) (by rw [hb3]; exact h5), hx2]
    · have hfresh : ∀ x ∈ citas, x.id ≠ (nuevaCita citas body).id := by
        intro x hx heq
        have hgen : (nuevaCita citas body).id = generarId "C" (citas.map (fun c => c.id)) := by
          simp [nuevaCita, hid]
        rw [hgen] at heq
        have hcota2 : ∀ id ∈ citas.map (fun c => c.id), restoNumerico "C" id < 2 ^ 53 := by
          intro id hmem
          obtain ⟨c, hc, rfl⟩ := List.mem_map.mp hmem
          exact hcota c hc
        exact generarId_fresco "C" (citas.map (fun c => c.id)) hcota2
          (heq ▸ List.mem_map_of_mem (fun c => c.id) hx)
      have hcancel : putCitasCancelar (citas ++ [nuevaCita citas body]) (nuevaCita citas body).id
          = .ok (citas ++ [{ nuevaCita citas body with estado := "cancelada" }]) := by
        rcases putCitasCancelar_casos (citas ++ [nuevaCita citas body]) (nuevaCita citas body).id
          with ⟨k1, _⟩ | ⟨pre, c, post, k1, k2, k3, k4, k5⟩
        · have := List.find?_eq_none.mp k1 (nuevaCita citas body) (by simp)
          simp at this
        · have hfind : (citas ++ [nuevaCita citas body]).find?
              (fun c => c.id == (nuevaCita citas body).id) = some (nuevaCita citas body) := by
            rw [List.find?_append]
            have hpre : citas.find? (fun c => c.id == (nuevaCita citas body).id) = none := by
              rw [List.find?_eq_none]
              intro x hx
              simpa using hfresh x hx
            simp [hpre]
          rw [hfind] at k4
          injection k4 with k4
          subst k4
          have hpre : pre = citas ∧ post = [] := by
            have hnot : nuevaCita citas body ∉ pre := fun hm => k2 _ hm rfl
            have hlen : pre.length = citas.length := by
              rcases Nat.lt_trichotomy pre.length citas.length with hlt | heq | hgt
              · exfalso
                have h1 : (citas ++ [nuevaCita citas body])[pre.length]? = citas[pre.length]? :=
                  List.getElem?_append_left hlt
                rw [k1, List.getElem?_append_right (Nat.le_refl _)] at h1
                simp only [Nat.sub_self, List.getElem?_cons_zero] at h1
                have hmemc : nuevaCita citas body ∈ citas :=
                  List.getElem?_mem h1.symm
                exact hfresh _ hmemc rfl
              · exact heq
              · exfalso
                have h1 := congrArg List.length k1
                simp only [List.length_append, List.length_cons, List.length_nil] at h1
                omega
            have h2 := List.append_inj k1 hlen.symm
            refine ⟨h2.1.symm, ?_⟩
            have h3 := h2.2
            injection h3 with _ h3
            exact h3.symm
          obtain ⟨hpre1, hpost⟩ := hpre
          subst hpre1 hpost
          rcases k5 with ⟨k6, _⟩ | ⟨_, k6⟩
          · exact absurd rfl k6
          · exact k6
      refine ⟨_, hcancel, rfl, ?_, rfl⟩
      have hlibre2 : citaExistente (citas ++ [{ nuevaCita citas body with estado := "cancelada" }])
          body.doctorId body.fecha body.hora = none := by
        rw [citaExistente_eq_none_iff]
        intro c hc2
        rcases List.mem_append.mp hc2 with hc3 | hc3
        · exact (citaExistente_eq_none_iff _ _ _ _).mp hlibre c hc3
        · simp only [List.mem_singleton] at hc3
          subst hc3
          simp
      have hv2 := @validarCita_por_citaExistente e pacientes doctores
        (citas ++ [{ nuevaCita citas body with estado := "cancelada" }]) body r.1 r.2
        hc hp hd h3 h4 h5
      rw [hlibre2] at hv2
      unfold postCitas
      rw [hv2]

/-- C4 at the sample request into a store that holds the appointment `C001`
of 10:00: booked as `C002`, cancelled by that id, and booked again. -/
theorem C4_reservar_cancelar_reservar_witness :
    ∃ citas2,
      putCitasCancelar
          [⟨"C001", "P001", "D001", "2030-01-07", "10:00", "Control", "programada"⟩,
            ⟨"C002", "P001", "D001", "2030-01-07", "11:30", "Revisión", "programada"⟩]
          (nuevaCita [⟨"C001", "P001", "D001", "2030-01-07", "10:00", "Control", "programada"⟩]
            cuerpoEjemplo).id
        = .ok citas2
      ∧ citas2 = [⟨"C001", "P001", "D001", "2030-01-07", "10:00", "Control", "programada"⟩]
          ++ [{ nuevaCita [⟨"C001", "P001", "D001", "2030-01-07", "10:00", "Control",
                  "programada"⟩] cuerpoEjemplo with estado := "cancelada" }]
      ∧ postCitas entornoUTC [pacienteEjemplo] [doctorEjemplo] citas2 cuerpoEjemplo
          = .ok (citas2 ++ [nuevaCita citas2 cuerpoEjemplo])
      ∧ (nuevaCita citas2 cuerpoEjemplo).estado = "programada" :=
  (C4_reservar_cancelar_reservar entornoUTC [pacienteEjemplo] [doctorEjemplo]
    [⟨"C001", "P001", "D001", "2030-01-07", "10:00", "Control", "programada"⟩]
    [⟨"C001", "P001", "D001", "2030-01-07", "10:00", "Control", "programada"⟩,
      ⟨"C002", "P001", "D001", "2030-01-07", "11:30", "Revisión", "programada"⟩]
    cuerpoEjemplo (by decide) (by decide) (by decide)).2.2

/-- C4 fails as stated. From the empty store the sample request is booked as
`C001`; a request for another time whose body carries the key `id` with value
`C001` is booked too and is given that id; the cancellation with the id it
was given cancels the first appointment, and the identical request is still
rejected as slot already booked. Besides, a request for the slot of a stored
`programada` appointment whose patient is unknown is rejected as patient not
found, not as slot already booked. And from the empty store a request for
10:00 whose body carries the key `id` with value `C9007199254740992` is
booked under that id; the sample request, whose body carries no id, is then
booked under the same id, since the double `2 ^ 53` plus one is that double
again; the cancellation with the id it was given cancels the appointment of
10:00, and the identical request is still rejected as slot already booked. -/
theorem C4_counterexample :
    postCitas entornoUTC [pacienteEjemplo] [doctorEjemplo] [] cuerpoEjemplo
      = .ok [⟨"C001", "P001", "D001", "2030-01-07", "11:30", "Revisión", "programada"⟩]
    ∧ postCitas entornoUTC [pacienteEjemplo] [doctorEjemplo]
        [⟨"C001", "P001", "D001", "2030-01-07", "11:30", "Revisión", "programada"⟩]
        ⟨some "C001", "P001", "D001", "2030-01-07", "10:00", "Control"⟩
      = .ok [⟨"C001", "P001", "D001", "2030-01-07", "11:30", "Revisión", "programada"⟩,
          ⟨"C001", "P001", "D001", "2030-01-07", "10:00", "Control", "programada"⟩]
    ∧ putCitasCancelar
        [⟨"C001", "P001", "D001", "2030-01-07", "11:30", "Revisión", "programada"⟩,
          ⟨"C001", "P001", "D001", "2030-01-07", "10:00", "Control", "programada"⟩] "C001"
      = .ok [⟨"C001", "P001", "D001", "2030-01-07", "11:30", "Revisión", "cancelada"⟩,
          ⟨"C001", "P001", "D001", "2030-01-07", "10:00", "Control", "programada"⟩]
    ∧ validarCita entornoUTC [pacienteEjemplo] [doctorEjemplo]
        [⟨"C001", "P001", "D001", "2030-01-07", "11:30", "Revisión", "cancelada"⟩,
          ⟨"C001", "P001", "D001", "2030-01-07", "10:00", "Control", "programada"⟩]
        ⟨some "C001", "P001", "D001", "2030-01-07", "10:00", "Control"⟩
      = .error ⟨400, "El doctor ya tiene una cita programada en este horario"⟩
    ∧ validarCita entornoUTC [pacienteEjemplo] [doctorEjemplo]
        [⟨"C001", "P001", "D001", "2030-01-07", "11:30", "Revisión", "programada"⟩]
        ⟨none, "P999", "D001", "2030-01-07", "11:30", "Revisión"⟩
      = .error ⟨404, "Paciente no encontrado"⟩
    ∧ postCitas entornoUTC [pacienteEjemplo] [doctorEjemplo] []
        ⟨some "C9007199254740992", "P001", "D001", "2030-01-07", "10:00", "Control"⟩
      = .ok [⟨"C9007199254740992", "P001", "D001", "2030-01-07", "10:00", "Control",
          "programada"⟩]
    ∧ postCitas entornoUTC [pacienteEjemplo] [doctorEjemplo]
        [⟨"C9007199254740992", "P001", "D001", "2030-01-07", "10:00", "Control", "programada"⟩]
        cuerpoEjemplo
      = .ok [⟨"C9007199254740992", "P001", "D001", "2030-01-07", "10:00", "Control",
            "programada"⟩,
          ⟨"C9007199254740992", "P001", "D001", "2030-01-07", "11:30", "Revisión",
            "programada"⟩]
    ∧ putCitasCancelar
        [⟨"C9007199254740992", "P001", "D001", "2030-01-07", "10:00", "Control", "programada"⟩,
          ⟨"C9007199254740992", "P001", "D001", "2030-01-07", "11:30", "Revisión",
            "programada"⟩]
        "C9007199254740992"
      = .ok [⟨"C9007199254740992", "P001", "D001", "2030-01-07", "10:00", "Control",
            "cancelada"⟩,
          ⟨"C9007199254740992", "P001", "D001", "2030-01-07", "11:30", "Revisión",
            "programada"⟩]
    ∧ validarCita entornoUTC [pacienteEjemplo] [doctorEjemplo]
        [⟨"C9007199254740992", "P001", "D001", "2030-01-07", "10:00", "Control", "cancelada"⟩,
          ⟨"C9007199254740992", "P001", "D001", "2030-01-07", "11:30", "Revisión",
            "programada"⟩]
        cuerpoEjemplo
      = .error ⟨400, "El doctor ya tiene una cita programada en este horario"⟩ := by
  decide

/-! ### The head of a stable descending sort -/

/-- The first entry after an insertion. -/
theorem insertarOrdenado_head? {α : Type} (cmp : α → α → Int) (a : α) (l : List α) :
    (insertarOrdenado cmp a l).head?
      = match l.head? with
        | none => some a
        | some b => if cmp a b ≤ 0 then some a else some b := by
  cases l with
  | nil => rfl
  | cons b l =>
    simp only [insertarOrdenado, List.head?_cons]
    split <;> rfl

/-- An insertion never yields the empty list. -/
theorem insertarOrdenado_ne_nil {α : Type} (cmp : α → α → Int) (a : α) (l : List α) :
    insertarOrdenado cmp a l ≠ [] := by
  cases l with
  | nil => simp [insertarOrdenado]
  | cons b l =>
    simp only [insertarOrdenado]
    split <;> simp

/-- Only the empty list sorts to the empty list. -/
theorem sort_eq_nil {α : Type} (cmp : α → α → Int) (l : List α) (h : sort cmp l = []) :
    l = [] := by
  cases l with
  | nil => rfl
  | cons a l => exact absurd h (insertarOrdenado_ne_nil cmp a _)

/-- Every key is at most the largest key. -/
theorem le_foldr_max {α : Type} (key : α → Nat) (l : List α) :
    ∀ x ∈ l, key x ≤ (l.map key).foldr max 0 := by
  induction l with
  | nil => simp
  | cons a l ih =>
    intro x hx
    simp only [List.map_cons, List.foldr_cons]
    rcases List.mem_cons.mp hx with rfl | hx
    · exact le_max_left _ _
    · exact le_max_of_le_right (ih x hx)

/-- In a non-empty list some entry has the largest key. -/
theorem exists_foldr_max {α : Type} (key : α → Nat) (l : List α) (hne : l ≠ []) :
    ∃ x ∈ l, key x = (l.map key).foldr max 0 := by
  induction l with
  | nil => exact absurd rfl hne
  | cons a l ih =>
    simp only [List.map_cons, List.foldr_cons]
    by_cases hl : l = []
    · subst hl
      exact ⟨a, by simp, by simp⟩
    · obtain ⟨x, hx, hkey⟩ := ih hl
      by_cases hle : (l.map key).foldr max 0 ≤ key a
      · exact ⟨a, by simp, by rw [max_eq_left hle]⟩
      · exact ⟨x, List.mem_cons_of_mem _ hx, by rw [hkey, max_eq_right (by omega)]⟩

/-- The largest key is a bound exactly when every key is below it. -/
theorem foldr_max_le_iff {α : Type} (key : α → Nat) (l : List α) (b : Nat) :
    (l.map key).foldr max 0 ≤ b ↔ ∀ x ∈ l, key x ≤ b := by
  induction l with
  | nil => simp
  | cons a l ih => simp [ih]

/-- The head of the stable sort in descending order of a key is the first
entry, in the original order, whose key is the largest. -/
theorem sort_head? {α : Type} (key : α → Nat) (l : List α) :
    (sort (fun a b => (key b : Int) - (key a : Int)) l).head?
      = l.find? (fun x => key x == (l.map key).foldr max 0) := by
  induction l with
  | nil => rfl
  | cons a l ih =>
    simp only [sort, insertarOrdenado_head?, ih, List.map_cons, List.foldr_cons]
    cases hfind : l.find? (fun x => key x == (l.map key).foldr max 0) with
    | none =>
      have hl : l = [] := by
        by_contra hne
        obtain ⟨x, hx, hkey⟩ := exists_foldr_max key l hne
        have := List.find?_eq_none.mp hfind x hx
        simp [hkey] at this
      subst hl
      simp
    | some h =>
      have hkey : key h = (l.map key).foldr max 0 := by
        have := List.find?_some hfind
        simpa using this
      simp only
      by_cases hle : (l.map key).foldr max 0 ≤ key a
      · have hcmp : (key h : Int) - (key a : Int) ≤ 0 := by omega
        simp [hcmp, List.find?_cons, max_eq_left hle]
      · have hcmp : ¬ ((key h : Int) - (key a : Int) ≤ 0) := by omega
        have hmax : max (key a) ((l.map key).foldr max 0) = (l.map key).foldr max 0 :=
          max_eq_right (by omega)
        have hne : (key a == (l.map key).foldr max 0) = false := by
          simp only [beq_eq_false_iff_ne, ne_eq]
          omega
        simp only [hcmp, ↓reduceIte, hmax, List.find?_cons, hne]
        exact hfind.symm

/-- C9. Top doctor: `GET /estadisticas/doctores` returns the entry of the first
doctor, in the order of the doctor collection, whose number of appointments
with its id and `estado` other than `cancelada` is the largest among all
doctors, with `totalCitas` equal to that largest number; such a doctor exists
whenever the collection is not empty (also when every count is zero, where it
is the first doctor); for the empty collection the route returns the empty
object; and for three doctors with 0, 3 and 3 active appointments the result
is the second one. -/
theorem C9_doctor_con_mas_citas (doctores : List Doctor) (citas : List Cita) :
    getEstadisticasDoctores doctores citas
      = (primerDoctorConMaximo doctores citas).map (fun d =>
          { doctor := d.nombre, especialidad := d.especialidad,
            totalCitas := maximoDeCitas doctores citas })
    ∧ (doctores ≠ [] → ∃ d, primerDoctorConMaximo doctores citas = some d ∧ d ∈ doctores
        ∧ citasActivasDe citas d = maximoDeCitas doctores citas
        ∧ ∀ d2 ∈ doctores, citasActivasDe citas d2 ≤ maximoDeCitas doctores citas)
    ∧ ((∀ d ∈ doctores, citasActivasDe citas d = 0) →
        getEstadisticasDoctores doctores citas
          = doctores.head?.map (fun d =>
              { doctor := d.nombre, especialidad := d.especialidad, totalCitas := 0 }))
    ∧ getEstadisticasDoctores [] citas = none
    ∧ getEstadisticasDoctores tresDoctores sieteCitas = some ⟨"Dos", "Pediatría", 3⟩ := by
  have hprincipal : getEstadisticasDoctores doctores citas
      = (primerDoctorConMaximo doctores citas).map (fun d =>
          { doctor := d.nombre, especialidad := d.especialidad,
            totalCitas := maximoDeCitas doctores citas }) := by
    unfold getEstadisticasDoctores citasPorDoctor primerDoctorConMaximo
    rw [sort_head? (fun t : TotalDoctor => t.totalCitas), List.find?_map, List.map_map]
    have hkeys : ((fun t : TotalDoctor => t.totalCitas) ∘ fun doctor : Doctor =>
        ({ doctor := doctor.nombre, especialidad := doctor.especialidad,
           totalCitas := (citas.filter
            (fun c => c.doctorId == doctor.id && c.estado != "cancelada")).length } : TotalDoctor))
        = citasActivasDe citas := by
      funext d
      simp [citasActivasDe, List.countP_eq_length_filter]
    rw [hkeys]
    have hpred : ((fun x : TotalDoctor =>
          x.totalCitas == (doctores.map (citasActivasDe citas)).foldr max 0) ∘
        fun doctor : Doctor =>
        ({ doctor := doctor.nombre, especialidad := doctor.especialidad,
           totalCitas := (citas.filter
            (fun c => c.doctorId == doctor.id && c.estado != "cancelada")).length } : TotalDoctor))
        = fun d => citasActivasDe citas d == maximoDeCitas doctores citas := by
      funext d
      simp [citasActivasDe, List.countP_eq_length_filter, maximoDeCitas]
    rw [hpred]
    cases hfind : doctores.find?
        (fun d => citasActivasDe citas d == maximoDeCitas doctores citas) with
    | none => rfl
    | some d =>
      have hd : citasActivasDe citas d = maximoDeCitas doctores citas := by
        have := List.find?_some hfind
        simpa using this
      simp only [Option.map_some', Option.some.injEq, TotalDoctor.mk.injEq, true_and]
      rw [← hd]
      simp [citasActivasDe, List.countP_eq_length_filter]
  refine ⟨hprincipal, ?_, ?_, rfl, by decide⟩
  · intro hne
    obtain ⟨x, hx, hkey⟩ := exists_foldr_max (citasActivasDe citas) doctores hne
    cases hfind : primerDoctorConMaximo doctores citas with
    | none =>
      unfold primerDoctorConMaximo at hfind
      have := List.find?_eq_none.mp hfind x hx
      simp [maximoDeCitas, hkey] at this
    | some d =>
      unfold primerDoctorConMaximo at hfind
      refine ⟨d, rfl, List.mem_of_find?_eq_some hfind, ?_, ?_⟩
      · have := List.find?_some hfind
        simpa using this
      · exact le_foldr_max (citasActivasDe citas) doctores
  · intro hcero
    have hmax : maximoDeCitas doctores citas = 0 := by
      have := (foldr_max_le_iff (citasActivasDe citas) doctores 0).mpr
        (fun d hd => by rw [hcero d hd])
      unfold maximoDeCitas
      omega
    rw [hprincipal, hmax]
    unfold primerDoctorConMaximo
    rw [hmax]
    cases doctores with
    | nil => rfl
    | cons d resto =>
      have := hcero d (by simp)
      simp [List.find?_cons, this]

/-- C9 at the three sample doctors: the collection is not empty, and the
first doctor with the largest count is the second one, with three active
appointments. -/
theorem C9_doctor_con_mas_citas_witness :
    ∃ d, primerDoctorConMaximo tresDoctores sieteCitas = some d ∧ d ∈ tresDoctores
      ∧ citasActivasDe sieteCitas d = maximoDeCitas tresDoctores sieteCitas
      ∧ ∀ d2 ∈ tresDoctores, citasActivasDe sieteCitas d2 ≤ maximoDeCitas tresDoctores sieteCitas :=
  (C9_doctor_con_mas_citas tresDoctores sieteCitas).2.1 (by decide)

/-! ### Counting into an object -/

/-- The `forEach` of `GET /estadisticas/especialidades` counts the specialties
of the counted appointments one by one. -/
theorem especialidadesCount_eq_contar (doctores : List Doctor) (citas : List Cita) :
    especialidadesCount doctores citas = contar (especialidadesContadas doctores citas) := by
  unfold especialidadesCount contar especialidadesContadas
  generalize ([] : List (String × Nat)) = obj
  induction citas generalizing obj with
  | nil => rfl
  | cons c cs ih =>
    simp only [List.foldl_cons, List.filterMap_cons]
    by_cases hest : (c.estado != "cancelada") = true
    · simp only [hest, ↓reduceIte]
      cases hd : doctores.find? (fun d => d.id == c.doctorId) with
      | none => simpa using ih obj
      | some d => simpa using ih (incrementar d.especialidad obj)
    · simp only [hest, Bool.false_eq_true, ↓reduceIte]
      exact ih obj

/-- Counting a key that the object does not have appends it with count one. -/
theorem incrementarPropia_nueva (x : String) (c : String → Nat) (claves : List String)
    (hx : x ∉ claves) :
    incrementarPropia x (claves.map (fun k => (k, c k)))
      = claves.map (fun k => (k, c k)) ++ [(x, 1)] := by
  induction claves with
  | nil => rfl
  | cons k ks ih =>
    have hk : k ≠ x := fun h => hx (by simp [h])
    have hks : x ∉ ks := fun h => hx (List.mem_cons_of_mem _ h)
    simp only [List.map_cons, incrementarPropia, hk, ↓reduceIte, ih hks, List.cons_append]

/-- Counting a key that the object has adds one to its count and leaves the
other properties and the order as they are. -/
theorem incrementarPropia_presente (x : String) (c : String → Nat) (claves : List String)
    (hx : x ∈ claves) (hnodup : claves.Nodup) :
    incrementarPropia x (claves.map (fun k => (k, c k)))
      = claves.map (fun k => (k, if k = x then c k + 1 else c k)) := by
  induction claves with
  | nil => cases hx
  | cons k ks ih =>
    have hnd := List.nodup_cons.mp hnodup
    by_cases hk : k = x
    · subst hk
      simp only [List.map_cons, incrementarPropia, ↓reduceIte, List.cons.injEq, true_and]
      apply List.map_congr_left
      intro y hy
      have : y ≠ k := fun h => hnd.1 (h ▸ hy)
      simp [this]
    · have hmem : x ∈ ks := by
        rcases List.mem_cons.mp hx with h | h
        · exact absurd h.symm hk
        · exact h
      simp only [List.map_cons, incrementarPropia, hk, ↓reduceIte, ih hmem hnd.2]

/-- The object built by counting a list of keys holds each distinct key once,
with its number of occurrences, in the order of the first occurrences,
when `__proto__` is not among the keys. -/
theorem contar_forma (l : List String) :
    (∀ k ∈ l, k ≠ "__proto__") →
    ∃ claves : List String, contar l = claves.map (fun k => (k, l.count k))
      ∧ claves.Nodup ∧ (∀ k, k ∈ claves ↔ k ∈ l)
      ∧ ∀ P : String → Bool, claves.find? P = l.find? P := by
  induction l using List.reverseRecOn with
  | nil => exact fun _ => ⟨[], rfl, List.nodup_nil, by simp, by simp⟩
  | append_singleton l x ih =>
    intro hproto
    obtain ⟨claves, hform, hnodup, hmem, hfind⟩ :=
      ih (fun k hk => hproto k (List.mem_append_left _ hk))
    have hxp : x ≠ "__proto__" := hproto x (by simp)
    have hstep : contar (l ++ [x]) = incrementarPropia x (contar l) := by
      simp [contar, List.foldl_append, incrementar, hxp]
    by_cases hx : x ∈ l
    · refine ⟨claves, ?_, hnodup, ?_, ?_⟩
      · rw [hstep, hform, incrementarPropia_presente x _ claves ((hmem x).mpr hx) hnodup]
        apply List.map_congr_left
        intro k _
        by_cases hk : k = x
        · subst hk
          simp
        · have : ¬ x = k := fun h => hk h.symm
          simp [hk, List.count_append, this]
      · intro k
        rw [hmem k]
        constructor
        · intro h
          exact List.mem_append_left _ h
        · intro h
          rcases List.mem_append.mp h with h | h
          · exact h
          · simp only [List.mem_singleton] at h
            rw [h]
            exact hx
      · intro P
        rw [hfind P, List.find?_append]
        cases hl : l.find? P with
        | some y => rfl
        | none =>
          have := List.find?_eq_none.mp hl x hx
          simp [List.find?_cons, this]
    · have hxc : x ∉ claves := fun h => hx ((hmem x).mp h)
      refine ⟨claves ++ [x], ?_, ?_, ?_, ?_⟩
      · rw [hstep, hform, incrementarPropia_nueva x _ claves hxc, List.map_append]
        congr 1
        · apply List.map_congr_left
          intro k hk
          have : ¬ x = k := fun h => hxc (h ▸ hk)
          simp [List.count_append, List.count_singleton, this]
        · simp [List.count_append, List.count_eq_zero_of_not_mem hx]
      · rw [List.nodup_append]
        refine ⟨hnodup, List.nodup_singleton x, ?_⟩
        intro a ha hb
        simp only [List.mem_singleton] at hb
        exact hxc (hb ▸ ha)
      · intro k
        simp only [List.mem_append, List.mem_singleton, hmem k]
      · intro P
        rw [List.find?_append, List.find?_append, hfind P]

/-- An object without array-index keys lists its entries in creation order. -/
theorem entries_sin_indices (obj : List (String × Nat))
    (h : ∀ kv ∈ obj, esIndice kv.1 = false) : entries obj = obj := by
  unfold entries
  have h1 : obj.filter (fun kv => esIndice kv.1) = [] := by
    rw [List.filter_eq_nil_iff]
    intro kv hkv
    simp [h kv hkv]
  have h2 : obj.filter (fun kv => !(esIndice kv.1)) = obj := by
    rw [List.filter_eq_self]
    intro kv hkv
    simp [h kv hkv]
  rw [h1, h2]
  rfl

/-- Two lists with the same entries have the same largest key. -/
theorem foldr_max_congr_mem {α : Type} (key : α → Nat) (l1 l2 : List α)
    (h : ∀ x, x ∈ l1 ↔ x ∈ l2) :
    (l1.map key).foldr max 0 = (l2.map key).foldr max 0 := by
  apply le_antisymm
  · rw [foldr_max_le_iff]
    intro x hx
    exact le_foldr_max key l2 x ((h x).mp hx)
  · rw [foldr_max_le_iff]
    intro x hx
    exact le_foldr_max key l1 x ((h x).mpr hx)

/-- C10, as the code has it. When no counted specialty name is an array-index
key or the name of a member of `Object.prototype`,
`GET /estadisticas/especialidades` counts, per specialty, the appointments
with `estado` other than `cancelada` whose `doctorId` resolves to a doctor
(first match) of that specialty, and returns the specialty with the largest
count together with that count; among the specialties with that count it is
the one whose first counted appointment is the earliest in the appointment
collection: every counted appointment before it belongs to a specialty with a
smaller count; when no appointment is counted it returns `''` and `0`. -/
theorem C10_especialidad_mas_solicitada (doctores : List Doctor) (citas : List Cita)
    (hindice : ∀ e ∈ especialidadesContadas doctores citas, esIndice e = false)
    (hheredada : ∀ e ∈ especialidadesContadas doctores citas, esHeredada e = false) :
    getEstadisticasEspecialidades doctores citas
      = especialidadMasSolicitada (especialidadesContadas doctores citas)
    ∧ (especialidadesContadas doctores citas = [] →
        getEstadisticasEspecialidades doctores citas = ("", 0))
    ∧ (especialidadesContadas doctores citas ≠ [] →
        (getEstadisticasEspecialidades doctores citas).2
            = (especialidadesContadas doctores citas).count
                (getEstadisticasEspecialidades doctores citas).1
        ∧ (∀ e, (especialidadesContadas doctores citas).count e
            ≤ (getEstadisticasEspecialidades doctores citas).2)
        ∧ ∃ antes despues, especialidadesContadas doctores citas
            = antes ++ (getEstadisticasEspecialidades doctores citas).1 :: despues
          ∧ ∀ e ∈ antes, (especialidadesContadas doctores citas).count e
              < (getEstadisticasEspecialidades doctores citas).2) := by
  generalize hl : especialidadesContadas doctores citas = l at hindice hheredada ⊢
  have hprincipal : getEstadisticasEspecialidades doctores citas
      = especialidadMasSolicitada l := by
    have hproto : ∀ k ∈ l, k ≠ "__proto__" := by
      intro k hk heq
      have := hheredada k hk
      rw [heq] at this
      exact absurd this (by decide)
    obtain ⟨claves, hform, _, hmem, hfind⟩ := contar_forma l hproto
    have hentries : entries (contar l) = contar l := by
      apply entries_sin_indices
      intro kv hkv
      rw [hform] at hkv
      obtain ⟨k, hk, rfl⟩ := List.mem_map.mp hkv
      exact hindice k ((hmem k).mp hk)
    unfold getEstadisticasEspecialidades especialidadMasSolicitada maximoPorEspecialidad
    rw [especialidadesCount_eq_contar, hl, hentries,
      sort_head? (fun kv : String × Nat => kv.2), hform, List.find?_map, List.map_map]
    have hkeys : ((fun kv : String × Nat => kv.2) ∘ fun k => (k, l.count k))
        = fun e => l.count e := rfl
    rw [hkeys, foldr_max_congr_mem (fun e => l.count e) claves l hmem]
    have hpred : ((fun x : String × Nat =>
          x.2 == (l.map (fun e => l.count e)).foldr max 0) ∘ fun k => (k, l.count k))
        = fun e => l.count e == (l.map (fun e => l.count e)).foldr max 0 := rfl
    rw [hpred, hfind]
    cases hf : l.find? (fun e => l.count e == (l.map (fun e => l.count e)).foldr max 0) with
    | none => rfl
    | some e =>
      have := List.find?_some hf
      simp only [beq_iff_eq] at this
      simp [this]
  refine ⟨hprincipal, ?_, ?_⟩
  · intro hnil
    rw [hprincipal, hnil]
    rfl
  · intro hne
    rw [hprincipal]
    obtain ⟨x, hx, hkey⟩ := exists_foldr_max (fun e => l.count e) l hne
    unfold especialidadMasSolicitada
    cases hf : l.find? (fun e => l.count e == maximoPorEspecialidad l) with
    | none =>
      have := List.find?_eq_none.mp hf x hx
      simp [maximoPorEspecialidad, hkey] at this
    | some e =>
      have he : l.count e = maximoPorEspecialidad l := by
        have := List.find?_some hf
        simpa using this
      simp only
      refine ⟨he.symm, ?_, ?_⟩
      · intro e2
        by_cases h2 : e2 ∈ l
        · exact le_foldr_max (fun e => l.count e) l e2 h2
        · rw [List.count_eq_zero_of_not_mem h2]
          exact Nat.zero_le _
      · obtain ⟨_, antes, despues, hsplit, hantes⟩ := List.find?_eq_some.mp hf
        refine ⟨antes, despues, hsplit, ?_⟩
        intro e2 h2
        have hlt : l.count e2 ≠ maximoPorEspecialidad l := by
          have := hantes e2 h2
          simpa using this
        have hle : l.count e2 ≤ maximoPorEspecialidad l :=
          le_foldr_max (fun e => l.count e) l e2
            (by rw [hsplit]; exact List.mem_append_left _ h2)
        omega

/-- C10 at the three sample doctors and seven sample appointments:
`Cardiología` and `Pediatría` both count three, and the first counted
appointment is of `Cardiología`. -/
theorem C10_especialidad_mas_solicitada_witness :
    getEstadisticasEspecialidades tresDoctores sieteCitas
      = especialidadMasSolicitada (especialidadesContadas tresDoctores sieteCitas)
    ∧ getEstadisticasEspecialidades tresDoctores sieteCitas = ("Cardiología", 3) :=
  ⟨(C10_especialidad_mas_solicitada tresDoctores sieteCitas (by decide) (by decide)).1,
    by decide⟩

/-- C10 fails as stated. With specialties named `2` and `1` and one counted
appointment each, the first of them for `2`, both count one and the first
counted appointment is of `2`, yet the route returns `1`: the host lists
array-index keys first, in ascending order. And with the one specialty named
`__proto__` and one counted appointment, the route returns `''` with `0`. -/
theorem C10_counterexample :
    especialidadesContadas doctoresIndice dosCitas = ["2", "1"]
    ∧ especialidadMasSolicitada (especialidadesContadas doctoresIndice dosCitas) = ("2", 1)
    ∧ getEstadisticasEspecialidades doctoresIndice dosCitas = ("1", 1)
    ∧ especialidadesContadas doctoresProto dosCitas = ["__proto__"]
    ∧ getEstadisticasEspecialidades doctoresProto dosCitas = ("", 0) := by
  decide

/-- The callback of `GET /citas/proximas` passes exactly the appointments
inside the upcoming window. -/
theorem esProxima_iff (e : Entorno) (cita : Cita) :
    esProxima e cita = true ↔ enVentana e cita := by
  unfold esProxima enVentana
  have hms : msVentana = 86400000 := by decide
  rw [hms]
  by_cases hest : cita.estado = "programada"
  · cases hf : fechaHoraCita e cita with
    | none => simp [hest, fechaPosterior, fechaNoPosterior]
    | some t => simp [hest, fechaPosterior, fechaNoPosterior]
  · simp [hest]

/-- The handler registered for `GET /citas/proximas`, when it is run: it
returns the appointments with `estado` equal to `programada` whose combined
`fecha` and `hora` has a timestamp `t` with `now < t <= now + 24h`, each as
often as it is stored and in the order of the collection; an appointment at
exactly `now + 24h` is returned, one at `now + 24h + 1s` is not, one at
exactly `now` is not, and a `cancelada` appointment is not, whatever its
time. -/
theorem getCitasProximas_en_ventana (e : Entorno) (citas : List Cita) :
    (∃ p : Cita → Bool, (∀ c, p c = true ↔ enVentana e c)
        ∧ getCitasProximas e citas = citas.filter p)
    ∧ (getCitasProximas e citas).Sublist citas
    ∧ (∀ c, c ∈ getCitasProximas e citas ↔ c ∈ citas ∧ enVentana e c)
    ∧ (∀ c ∈ citas, c.estado = "programada" →
        fechaHoraCita e c = some (e.ahora + 86400000) → c ∈ getCitasProximas e citas)
    ∧ (∀ c, fechaHoraCita e c = some (e.ahora + 86400000 + 1000) →
        c ∉ getCitasProximas e citas)
    ∧ (∀ c, fechaHoraCita e c = some e.ahora → c ∉ getCitasProximas e citas)
    ∧ (∀ c, c.estado = "cancelada" → c ∉ getCitasProximas e citas) := by
  have hmem : ∀ c, c ∈ getCitasProximas e citas ↔ c ∈ citas ∧ enVentana e c := by
    intro c
    unfold getCitasProximas
    rw [List.mem_filter, esProxima_iff]
  refine ⟨⟨esProxima e, esProxima_iff e, rfl⟩, List.filter_sublist _, hmem, ?_, ?_, ?_, ?_⟩
  · intro c hc hest hf
    exact (hmem c).mpr ⟨hc, hest, e.ahora + 86400000, hf, by omega, by omega⟩
  · intro c hf hin
    obtain ⟨_, _, t, ht, _, h2⟩ := (hmem c).mp hin
    rw [hf] at ht
    injection ht with ht
    omega
  · intro c hf hin
    obtain ⟨_, _, t, ht, h1, _⟩ := (hmem c).mp hin
    rw [hf] at ht
    injection ht with ht
    omega
  · intro c hest hin
    obtain ⟨_, hprog, _⟩ := (hmem c).mp hin
    rw [hest] at hprog
    exact absurd hprog (by decide)

/-- The handler registered for `GET /citas/proximas` at the sample
appointments, on a server at 2030-01-07T01:00Z: the appointment of 2030-01-08
01:00 is at exactly `now + 24h` and is returned; and on the same server one
second earlier it is at `now + 24h + 1s` and is not. -/
theorem getCitasProximas_en_ventana_ejemplo :
    citaEn "C001" "2030-01-08" "01:00" "programada"
        ∈ getCitasProximas entornoProximas citasProximasEjemplo
    ∧ citaEn "C001" "2030-01-08" "01:00" "programada"
        ∉ getCitasProximas entornoProximasAntes citasProximasEjemplo
    ∧ citaEn "C002" "2030-01-07" "01:00" "programada"
        ∉ getCitasProximas entornoProximas citasProximasEjemplo
    ∧ citaEn "C003" "2030-01-07" "12:00" "cancelada"
        ∉ getCitasProximas entornoProximas citasProximasEjemplo :=
  ⟨(getCitasProximas_en_ventana entornoProximas citasProximasEjemplo).2.2.2.1 _
      (by decide) (by decide) (by decide),
    (getCitasProximas_en_ventana entornoProximasAntes citasProximasEjemplo).2.2.2.2.1 _
      (by decide),
    (getCitasProximas_en_ventana entornoProximas citasProximasEjemplo).2.2.2.2.2.1 _ (by decide),
    (getCitasProximas_en_ventana entornoProximas citasProximasEjemplo).2.2.2.2.2.2 _ (by decide)⟩

/-- C11 against the code. A `GET` request for the path `/citas/proximas`
matches the route `/citas/:id`, registered earlier, with `proximas` as the id,
and is answered by that handler: with the appointment whose id is `proximas`,
or with status 404 and `Cita no encontrada`. So on a server at
2030-01-07T01:00Z whose only appointment is `programada` at 2030-01-07 13:00,
twelve hours after now, the answer is 404 `Cita no encontrada`, whereas the
handler registered for the path, which is not run, would return that
appointment. -/
theorem C11_ruta_proximas_encubierta :
    (∀ (e : Entorno) (doctores : List Doctor) (citas : List Cita) (fecha hora : String),
        responderGet e doctores citas ["citas", "proximas"] fecha hora
          = .cita (getCitasId citas "proximas"))
    ∧ encaminarGet ["citas", "proximas"] = some (.citasId, [("id", "proximas")])
    ∧ fechaHoraCita entornoProximas (citaEn "C001" "2030-01-07" "13:00" "programada")
        = some (entornoProximas.ahora + 12 * 60 * 60 * 1000)
    ∧ responderGet entornoProximas [doctorEjemplo]
          [citaEn "C001" "2030-01-07" "13:00" "programada"] ["citas", "proximas"] "" ""
        = .cita (.error ⟨404, "Cita no encontrada"⟩)
    ∧ getCitasProximas entornoProximas [citaEn "C001" "2030-01-07" "13:00" "programada"]
        = [citaEn "C001" "2030-01-07" "13:00" "programada"] :=
  ⟨fun _ _ _ _ _ => rfl, by decide, by decide, by decide, by decide⟩

end Citas
